import Mathlib

/-!
Verification development for the vector-drawing core (fpdf drawing module).

The definitions below are a shallow embedding of the drawing module: the
Python classes become Lean structures and inductives, the property getters
and setters become functions, machine floats become exact rationals (for the
style, primitive-serialization and registry layer, which only does field
arithmetic) and reals (for the geometry and arc-approximation layer, which
uses transcendental functions).  Mutable state (the process-wide style
registry, the path-builder cursor) is passed explicitly.  Python exceptions
become an explicit error component in the return value.
-/

namespace Drawing

/-- Python exception kinds raised by the style setters and the coercion
helpers of the drawing module. -/
inductive PyError where
  | typeError
  | valueError
  deriving DecidableEq, Repr

/-- Tri-state property value: the INHERIT sentinel (the Python Ellipsis
singleton used throughout GraphicsStyle) or an explicit value. -/
inductive Tri (α : Type) where
  | inherit
  | val (a : α)
  deriving DecidableEq, Repr

/-- Property value that can additionally be the Python None (an explicit
unset, used by the paint-rule auto-detection): INHERIT, None, or a value. -/
inductive TriN (α : Type) where
  | inherit
  | none
  | val (a : α)
  deriving DecidableEq, Repr

/-- View a Tri value as a TriN value (a stored property value that can never
be None, passed to a setter that also accepts None). -/
def Tri.toTriN {α : Type} : Tri α → TriN α
  | .inherit => .inherit
  | .val a => .val a

/-- Merge selection for one property: the value of the child unless it is
INHERIT, in which case the value of the parent.  This is the body of the
per-property branch of GraphicsStyle.merge. -/
def Tri.pick {α : Type} : Tri α → Tri α → Tri α
  | .inherit, p => p
  | c, _ => c

/-- Merge selection for one nullable property: the value of the child unless
it is INHERIT (None is not INHERIT and therefore wins over the parent). -/
def TriN.pick {α : Type} : TriN α → TriN α → TriN α
  | .inherit, p => p
  | c, _ => c

/-- The IntersectionRule enumeration (nonzero / evenodd winding rules). -/
inductive IntersectionRule where
  | NONZERO
  | EVENODD
  deriving DecidableEq, Repr

/-- The PathPaintRule enumeration of PDF path-painting directives. -/
inductive PathPaintRule where
  | STROKE
  | FILL_NONZERO
  | FILL_EVENODD
  | STROKE_FILL_NONZERO
  | STROKE_FILL_EVENODD
  | DONT_PAINT
  | AUTO
  deriving DecidableEq, Repr

/-- Value strings of the PathPaintRule members (the PDF operators). -/
def PathPaintRule.value : PathPaintRule → String
  | .STROKE => ("S")
  | .FILL_NONZERO => ("f")
  | .FILL_EVENODD => ("f*")
  | .STROKE_FILL_NONZERO => ("B")
  | .STROKE_FILL_EVENODD => ("B*")
  | .DONT_PAINT => ("n")
  | .AUTO => ("auto")

/-- The ClippingPathIntersectionRule enumeration. -/
inductive ClippingPathIntersectionRule where
  | NONZERO
  | EVENODD
  deriving DecidableEq, Repr

/-- Value strings of the ClippingPathIntersectionRule members. -/
def ClippingPathIntersectionRule.value : ClippingPathIntersectionRule → String
  | .NONZERO => ("W")
  | .EVENODD => ("W*")

/-- Name-based indexing used by ClippingPath.render: the expression
ClippingPathIntersectionRule[intersection_rule.name]. -/
def ClippingPathIntersectionRule.ofName :
    IntersectionRule → ClippingPathIntersectionRule
  | .NONZERO => .NONZERO
  | .EVENODD => .EVENODD

/-- The StrokeCapStyle integer enumeration. -/
inductive StrokeCapStyle where
  | BUTT
  | ROUND
  | SQUARE
  deriving DecidableEq, Repr

/-- Integer values of the StrokeCapStyle members. -/
def StrokeCapStyle.value : StrokeCapStyle → ℚ
  | .BUTT => 0
  | .ROUND => 1
  | .SQUARE => 2

/-- The StrokeJoinStyle integer enumeration. -/
inductive StrokeJoinStyle where
  | MITER
  | ROUND
  | BEVEL
  deriving DecidableEq, Repr

/-- Integer values of the StrokeJoinStyle members. -/
def StrokeJoinStyle.value : StrokeJoinStyle → ℚ
  | .MITER => 0
  | .ROUND => 1
  | .BEVEL => 2

/-- The BlendMode enumeration of the standard named PDF blend functions.  The
Python enumeration stores a Name value per member; the setter stores that
Name and the coercion of a stored Name returns the same member, so the model
keeps the member itself and exposes the Name through BlendMode.value. -/
inductive BlendMode where
  | NORMAL
  | MULTIPLY
  | SCREEN
  | OVERLAY
  | DARKEN
  | LIGHTEN
  | COLOR_DODGE
  | COLOR_BURN
  | HARD_LIGHT
  | SOFT_LIGHT
  | DIFFERENCE
  | EXCLUSION
  | HUE
  | SATURATION
  | COLOR
  | LUMINOSITY
  deriving DecidableEq, Repr

/-- Name values of the BlendMode members. -/
def BlendMode.value : BlendMode → String
  | .NORMAL => ("Normal")
  | .MULTIPLY => ("Multiply")
  | .SCREEN => ("Screen")
  | .OVERLAY => ("Overlay")
  | .DARKEN => ("Darken")
  | .LIGHTEN => ("Lighten")
  | .COLOR_DODGE => ("ColorDodge")
  | .COLOR_BURN => ("ColorBurn")
  | .HARD_LIGHT => ("HardLight")
  | .SOFT_LIGHT => ("SoftLight")
  | .DIFFERENCE => ("Difference")
  | .EXCLUSION => ("Exclusion")
  | .HUE => ("Hue")
  | .SATURATION => ("Saturation")
  | .COLOR => ("Color")
  | .LUMINOSITY => ("Luminosity")

/-- PDF device colors (DeviceRGB, DeviceGray, DeviceCMYK): channel values
with an optional alpha.  The constructors of the source range-check every
channel into the interval from 0 to 1; the model carries plain rationals and
the well-formedness predicates below capture that invariant where a proof
needs it. -/
inductive Color where
  | rgb (r g b : ℚ) (a : Option ℚ)
  | gray (g : ℚ) (a : Option ℚ)
  | cmyk (c m y k : ℚ) (a : Option ℚ)
  deriving DecidableEq, Repr

/-- Alpha component of a color (the field named a on all three classes). -/
def Color.a : Color → Option ℚ
  | .rgb _ _ _ a => a
  | .gray _ a => a
  | .cmyk _ _ _ _ a => a

/-- The colors property: the channel components with alpha omitted. -/
def Color.colors : Color → List ℚ
  | .rgb r g b _ => [r, g, b]
  | .gray g _ => [g]
  | .cmyk c m y k _ => [c, m, y, k]

/-- Lower-case paint operator of a color class (applies to fill). -/
def Color.operatorLower : Color → String
  | .rgb _ _ _ _ => ("rg")
  | .gray _ _ => ("g")
  | .cmyk _ _ _ _ _ => ("k")

/-- Upper-case paint operator of a color class (applies to stroke). -/
def Color.operatorUpper : Color → String
  | .rgb _ _ _ _ => ("RG")
  | .gray _ _ => ("G")
  | .cmyk _ _ _ _ _ => ("K")

/-- Round half to even of a rational to an integer.  This is the rounding
performed by the percent .4f formatting and by the builtin round of the
source, modeled over exact rationals instead of binary floats. -/
def round_half_even (x : ℚ) : ℤ :=
  let n := ⌊x⌋
  if x - n < 1/2 then n
  else if (1 : ℚ)/2 < x - n then n + 1
  else if n % 2 = 0 then n else n + 1

/-- Digit part of number_to_str: from the sign and the absolute value of the
input scaled by ten thousand, produce the fixed four-decimal digit string of
percent .4f formatting, then strip trailing zeros and a trailing dot exactly
as the two rstrip calls of the source do. -/
def format_scaled (neg : Bool) (m : ℕ) : String :=
  let ip := toString (m / 10000)
  let fracStr := toString (m % 10000)
  let padded := String.mk (List.replicate (4 - fracStr.length) ('0')) ++ fracStr
  let stripped := String.mk ((padded.data.reverse.dropWhile (fun c => c = '0')).reverse)
  (if neg then ("-") else ("")) ++ ip ++ (if stripped = "" then ("") else ("." ++ stripped))

/-- Model of number_to_str on the rational (style) layer: minimal string
representation of a number via percent .4f formatting followed by stripping
of trailing zeros and the trailing dot.  As the source comment notes, this
can produce the string minus zero for small negative numbers. -/
def number_to_str (q : ℚ) : String :=
  format_scaled (decide (q < 0)) (round_half_even (q * 10000)).natAbs

/-- Closed universe of values accepted by render_pdf_primitive: raw strings,
names, plain Python strings, byte strings, numbers, booleans, sequences,
None, and name-keyed mappings.  The duck-typed pdf_repr branch of the source
has no inhabitant in this closed universe, and the error branches for
unknown types and non-Name dictionary keys are unreachable by typing. -/
inductive PDFPrim where
  | raw (s : String)
  | name (n : String)
  | pystr (s : String)
  | bstr (bs : List ℕ)
  | num (q : ℚ)
  | bool (b : Bool)
  | arr (items : List PDFPrim)
  | pynone
  | dict (entries : List (String × PDFPrim))

/-- Single apostrophe character, built numerically. -/
def apos : String := String.mk [Char.ofNat 39]

/-- Text produced by a Python f-string that interpolates the builtin type str
itself rather than a string value:  str(str) is the text
class str surrounded by angle brackets and apostrophes. -/
def str_class_text : String := ("<class ") ++ apos ++ ("str") ++ apos ++ (">")

/-- Lower-case hexadecimal digit. -/
def hex_digit (k : ℕ) : Char :=
  if k < 10 then Char.ofNat (48 + k) else Char.ofNat (87 + k)

/-- Two-digit lower-case hexadecimal rendering of one byte (bytes.hex). -/
def byte_hex (b : ℕ) : String :=
  String.mk [hex_digit (b / 16 % 16), hex_digit (b % 16)]

/-- Model of render_pdf_primitive.  Branches follow the source in order: raw
data is emitted unchanged; a name is prefixed with a slash; a plain string
hits the branch whose f-string interpolates the builtin type str instead of
the value, so every plain string renders to the same constant text; bytes
render as hex between angle brackets; numbers through number_to_str; a bool
is an int in Python and is therefore captured by the preceding number branch,
rendering as 1 or 0 (the false and true literals of the source are dead
code); sequences recurse with spaces between elements; None renders as null;
mappings recurse over name keys joined by newlines. -/
def render_pdf_primitive : PDFPrim → String
  | .raw s => s
  | .name n => ("/") ++ n
  | .pystr _ => ("(") ++ str_class_text ++ (")")
  | .bstr bs => ("<") ++ String.join (bs.map byte_hex) ++ (">")
  | .num q => number_to_str q
  | .bool b => number_to_str (if b then 1 else 0)
  | .arr items =>
      ("[") ++ String.intercalate (" ")
        (items.attach.map (fun x => render_pdf_primitive x.1)) ++ ("]")
  | .pynone => ("null")
  | .dict entries =>
      ("<< ") ++ String.intercalate ("\n")
        (entries.attach.map
          (fun x => ("/") ++ x.1.1 ++ (" ") ++ render_pdf_primitive x.1.2)) ++ (" >>")
decreasing_by
  · have h1 := List.sizeOf_lt_of_mem x.2
    simp only [PDFPrim.arr.sizeOf_spec]
    omega
  · have h1 := List.sizeOf_lt_of_mem x.2
    obtain ⟨⟨a, b⟩, hx⟩ := x
    simp only [Prod.mk.sizeOf_spec] at h1
    simp only [PDFPrim.dict.sizeOf_spec]
    omega

/-- Stored representation of GraphicsStyle: one field per visual attribute,
each defaulting to the INHERIT sentinel exactly as the property getters of
the source default a missing instance attribute to INHERIT.  The dash
pattern and dash phase are entangled: the source stores them in the single
attribute named by STROKE_DASH_PATTERN as a pair of the length sequence and
the phase offset, so the model keeps one stroke_dash field and derives the
two property getters from it. -/
structure GraphicsStyle where
  paint_rule : Tri PathPaintRule := .inherit
  auto_close : Tri Bool := .inherit
  intersection_rule : Tri IntersectionRule := .inherit
  fill_color : TriN Color := .inherit
  fill_opacity : TriN ℚ := .inherit
  stroke_color : TriN Color := .inherit
  stroke_opacity : TriN ℚ := .inherit
  blend_mode : Tri BlendMode := .inherit
  stroke_width : TriN ℚ := .inherit
  stroke_cap_style : Tri StrokeCapStyle := .inherit
  stroke_join_style : Tri StrokeJoinStyle := .inherit
  stroke_miter_limit : Tri ℚ := .inherit
  stroke_dash : Tri (List ℚ × ℚ) := .inherit
  deriving DecidableEq, Repr

/-- The stroke_dash_pattern property getter: the stored pair projected to its
length sequence, or INHERIT when nothing is stored. -/
def GraphicsStyle.stroke_dash_pattern (s : GraphicsStyle) : Tri (List ℚ) :=
  match s.stroke_dash with
  | .val pr => .val pr.1
  | .inherit => .inherit

/-- The stroke_dash_phase property getter: the stored pair projected to its
phase offset, or INHERIT when nothing is stored. -/
def GraphicsStyle.stroke_dash_phase (s : GraphicsStyle) : Tri ℚ :=
  match s.stroke_dash with
  | .val pr => .val pr.2
  | .inherit => .inherit

/-- Model of _check_range with the default bounds 0 and 1: the error raised
when the value falls outside the closed interval. -/
def check_range (v : ℚ) : Option PyError :=
  if 0 ≤ v ∧ v ≤ 1 then Option.none else some .valueError

/-- The paint_rule property setter.  The None branch of the source stores
DONT_PAINT but is not an elif: on a None input control continues into the
second conditional, whose else branch calls PathPaintRule.coerce on None,
which raises TypeError because None is neither a member nor a string.  The
DONT_PAINT store has already happened when that exception is raised.  On a
member input the coercion returns the member unchanged. -/
def GraphicsStyle.set_paint_rule (self : GraphicsStyle) (new : TriN PathPaintRule) :
    GraphicsStyle × Option PyError :=
  let self := if new = TriN.none then { self with paint_rule := Tri.val .DONT_PAINT } else self
  match new with
  | .inherit => ({ self with paint_rule := .inherit }, Option.none)
  | .none => (self, some .typeError)
  | .val r => ({ self with paint_rule := .val r }, Option.none)

/-- The auto_close property setter.  The source accepts exactly True, False
and INHERIT and raises ValueError otherwise; the input type of the model has
no other inhabitants, so the store is unconditional here. -/
def GraphicsStyle.set_auto_close (self : GraphicsStyle) (new : Tri Bool) :
    GraphicsStyle × Option PyError :=
  ({ self with auto_close := new }, Option.none)

/-- The intersection_rule property setter: INHERIT is stored directly and
anything else passes through IntersectionRule.coerce, which is the identity
on members. -/
def GraphicsStyle.set_intersection_rule (self : GraphicsStyle) (new : Tri IntersectionRule) :
    GraphicsStyle × Option PyError :=
  match new with
  | .inherit => ({ self with intersection_rule := .inherit }, Option.none)
  | .val r => ({ self with intersection_rule := .val r }, Option.none)

/-- The fill_opacity property setter: values other than None and INHERIT are
range-checked, and on success the value is stored under the FILL_ALPHA key. -/
def GraphicsStyle.set_fill_opacity (self : GraphicsStyle) (new : TriN ℚ) :
    GraphicsStyle × Option PyError :=
  match new with
  | .val q =>
      match check_range q with
      | Option.none => ({ self with fill_opacity := .val q }, Option.none)
      | some e => (self, some e)
  | .none => ({ self with fill_opacity := .none }, Option.none)
  | .inherit => ({ self with fill_opacity := .inherit }, Option.none)

/-- The stroke_opacity property setter, mirror image of set_fill_opacity. -/
def GraphicsStyle.set_stroke_opacity (self : GraphicsStyle) (new : TriN ℚ) :
    GraphicsStyle × Option PyError :=
  match new with
  | .val q =>
      match check_range q with
      | Option.none => ({ self with stroke_opacity := .val q }, Option.none)
      | some e => (self, some e)
  | .none => ({ self with stroke_opacity := .none }, Option.none)
  | .inherit => ({ self with stroke_opacity := .inherit }, Option.none)

/-- The fill_color property setter.  The hex-string parsing branch of the
source is outside this input type.  A color value is stored, and when it
carries an alpha component the setter additionally assigns fill_opacity with
that alpha, which range-checks it; None and INHERIT are stored directly. -/
def GraphicsStyle.set_fill_color (self : GraphicsStyle) (new : TriN Color) :
    GraphicsStyle × Option PyError :=
  match new with
  | .val c =>
      let self := { self with fill_color := .val c }
      match c.a with
      | some a => self.set_fill_opacity (.val a)
      | Option.none => (self, Option.none)
  | .none => ({ self with fill_color := .none }, Option.none)
  | .inherit => ({ self with fill_color := .inherit }, Option.none)

/-- The stroke_color property setter, mirror image of set_fill_color. -/
def GraphicsStyle.set_stroke_color (self : GraphicsStyle) (new : TriN Color) :
    GraphicsStyle × Option PyError :=
  match new with
  | .val c =>
      let self := { self with stroke_color := .val c }
      match c.a with
      | some a => self.set_stroke_opacity (.val a)
      | Option.none => (self, Option.none)
  | .none => ({ self with stroke_color := .none }, Option.none)
  | .inherit => ({ self with stroke_color := .inherit }, Option.none)

/-- The blend_mode property setter: INHERIT stored directly, a member passed
through BlendMode.coerce and its Name value stored (the model stores the
member, which carries the Name through BlendMode.value). -/
def GraphicsStyle.set_blend_mode (self : GraphicsStyle) (new : Tri BlendMode) :
    GraphicsStyle × Option PyError :=
  match new with
  | .inherit => ({ self with blend_mode := .inherit }, Option.none)
  | .val b => ({ self with blend_mode := .val b }, Option.none)

/-- The stroke_width property setter: numbers, None and INHERIT are all
accepted by the isinstance check of the source and stored directly. -/
def GraphicsStyle.set_stroke_width (self : GraphicsStyle) (new : TriN ℚ) :
    GraphicsStyle × Option PyError :=
  ({ self with stroke_width := new }, Option.none)

/-- The stroke_cap_style property setter: INHERIT stored directly, members
coerced (the identity on members) and stored. -/
def GraphicsStyle.set_stroke_cap_style (self : GraphicsStyle) (new : Tri StrokeCapStyle) :
    GraphicsStyle × Option PyError :=
  match new with
  | .inherit => ({ self with stroke_cap_style := .inherit }, Option.none)
  | .val v => ({ self with stroke_cap_style := .val v }, Option.none)

/-- The stroke_join_style property setter, as for the cap style. -/
def GraphicsStyle.set_stroke_join_style (self : GraphicsStyle) (new : Tri StrokeJoinStyle) :
    GraphicsStyle × Option PyError :=
  match new with
  | .inherit => ({ self with stroke_join_style := .inherit }, Option.none)
  | .val v => ({ self with stroke_join_style := .val v }, Option.none)

/-- The stroke_miter_limit property setter: INHERIT or a number is stored
directly (other types would raise, but they are outside this input type). -/
def GraphicsStyle.set_stroke_miter_limit (self : GraphicsStyle) (new : Tri ℚ) :
    GraphicsStyle × Option PyError :=
  ({ self with stroke_miter_limit := new }, Option.none)

/-- The stroke_dash_pattern property setter on sequence, None and INHERIT
inputs (the scalar branch of the source promotes a number n to the
one-element sequence containing n before entering the sequence branch, and
is not separately modeled).  A sequence keeps the currently stored phase if
a pair is stored, else pairs the sequence with phase zero; None stores the
empty pattern with phase zero; INHERIT stores INHERIT. -/
def GraphicsStyle.set_stroke_dash_pattern (self : GraphicsStyle) (new : TriN (List ℚ)) :
    GraphicsStyle × Option PyError :=
  match new with
  | .val l =>
      match self.stroke_dash with
      | .val pr => ({ self with stroke_dash := .val (l, pr.2) }, Option.none)
      | .inherit => ({ self with stroke_dash := .val (l, 0) }, Option.none)
  | .none => ({ self with stroke_dash := .val ([], 0) }, Option.none)
  | .inherit => ({ self with stroke_dash := .inherit }, Option.none)

/-- The stroke_dash_phase property setter: a number requires a stored dash
pair to attach to, raising ValueError otherwise; INHERIT is silently passed
over without any store. -/
def GraphicsStyle.set_stroke_dash_phase (self : GraphicsStyle) (new : Tri ℚ) :
    GraphicsStyle × Option PyError :=
  match new with
  | .val q =>
      match self.stroke_dash with
      | .val pr => ({ self with stroke_dash := .val (pr.1, q) }, Option.none)
      | .inherit => (self, some .valueError)
  | .inherit => (self, Option.none)

/-- Error-propagating sequencing of setter calls inside merge: a raised
exception aborts the remaining property assignments. -/
def mstep (r : GraphicsStyle × Option PyError)
    (f : GraphicsStyle → GraphicsStyle × Option PyError) :
    GraphicsStyle × Option PyError :=
  match r with
  | (s, Option.none) => f s
  | err => err

/-- Model of GraphicsStyle.merge: a fresh style receives, for each property
of MERGE_PROPERTIES in order, the value of the child unless that value is
INHERIT, in which case the value of the parent; every assignment goes
through the corresponding property setter. -/
def GraphicsStyle.merge (parent child : GraphicsStyle) :
    GraphicsStyle × Option PyError :=
  let new : GraphicsStyle := {}
  let r := new.set_paint_rule (Tri.toTriN (Tri.pick child.paint_rule parent.paint_rule))
  let r := mstep r (fun s => s.set_auto_close (Tri.pick child.auto_close parent.auto_close))
  let r := mstep r (fun s => s.set_intersection_rule (Tri.pick child.intersection_rule parent.intersection_rule))
  let r := mstep r (fun s => s.set_fill_color (TriN.pick child.fill_color parent.fill_color))
  let r := mstep r (fun s => s.set_fill_opacity (TriN.pick child.fill_opacity parent.fill_opacity))
  let r := mstep r (fun s => s.set_stroke_color (TriN.pick child.stroke_color parent.stroke_color))
  let r := mstep r (fun s => s.set_stroke_opacity (TriN.pick child.stroke_opacity parent.stroke_opacity))
  let r := mstep r (fun s => s.set_blend_mode (Tri.pick child.blend_mode parent.blend_mode))
  let r := mstep r (fun s => s.set_stroke_width (TriN.pick child.stroke_width parent.stroke_width))
  let r := mstep r (fun s => s.set_stroke_cap_style (Tri.pick child.stroke_cap_style parent.stroke_cap_style))
  let r := mstep r (fun s => s.set_stroke_join_style (Tri.pick child.stroke_join_style parent.stroke_join_style))
  let r := mstep r (fun s => s.set_stroke_miter_limit (Tri.pick child.stroke_miter_limit parent.stroke_miter_limit))
  let r := mstep r (fun s => s.set_stroke_dash_pattern (Tri.toTriN (Tri.pick child.stroke_dash_pattern parent.stroke_dash_pattern)))
  mstep r (fun s => s.set_stroke_dash_phase (Tri.pick child.stroke_dash_phase parent.stroke_dash_phase))

/-- Opacity values stored through the range-checking setters lie between 0
and 1. -/
def TriN.opacityOK : TriN ℚ → Prop
  | .val q => 0 ≤ q ∧ q ≤ 1
  | _ => True

instance (t : TriN ℚ) : Decidable t.opacityOK :=
  match t with
  | .val q => inferInstanceAs (Decidable (0 ≤ q ∧ q ≤ 1))
  | .inherit => inferInstanceAs (Decidable True)
  | .none => inferInstanceAs (Decidable True)

/-- Alpha components of colors built by the range-checking constructors lie
between 0 and 1 when present. -/
def Color.alphaOK (c : Color) : Prop :=
  match c.a with
  | some a => 0 ≤ a ∧ a ≤ 1
  | Option.none => True

instance (c : Color) : Decidable c.alphaOK :=
  match h : c.a with
  | some a => by unfold Color.alphaOK; rw [h]; infer_instance
  | Option.none => by unfold Color.alphaOK; rw [h]; infer_instance

/-- Alpha well-formedness lifted to a stored color property. -/
def TriN.colorOK : TriN Color → Prop
  | .val c => c.alphaOK
  | _ => True

instance (t : TriN Color) : Decidable t.colorOK :=
  match t with
  | .val c => inferInstanceAs (Decidable c.alphaOK)
  | .inherit => inferInstanceAs (Decidable True)
  | .none => inferInstanceAs (Decidable True)

/-- Well-formed stored style: every value that the setters of the source
range-check is in range.  All styles reachable through the setters satisfy
this. -/
def GraphicsStyle.WF (s : GraphicsStyle) : Prop :=
  s.fill_opacity.opacityOK ∧ s.stroke_opacity.opacityOK ∧
    s.fill_color.colorOK ∧ s.stroke_color.colorOK

instance (s : GraphicsStyle) : Decidable s.WF :=
  inferInstanceAs (Decidable (_ ∧ _ ∧ _ ∧ _))

/-- Elements of the want set built by resolve_paint_rule: the two string
tags, the intersection-rule members, and the INHERIT sentinel (which the
source adds verbatim when the intersection rule of the style is INHERIT,
since Ellipsis is not None). -/
inductive WantElem where
  | strokeW
  | fillW
  | ir (r : IntersectionRule)
  | inheritSent
  deriving DecidableEq, Repr

/-- Element added for the intersection rule of the style: the member when one
is stored, the INHERIT sentinel otherwise. -/
def wantIR : Tri IntersectionRule → WantElem
  | .inherit => .inheritSent
  | .val r => .ir r

/-- Model of the class attribute _PAINT_RULE_LOOKUP: the fixed dictionary
from want sets to paint rules, with lookup failure as Option.none. -/
def PAINT_RULE_LOOKUP (w : Finset WantElem) : Option PathPaintRule :=
  if w = ∅ then some .DONT_PAINT
  else if w = {WantElem.strokeW} then some .STROKE
  else if w = {WantElem.fillW, WantElem.ir .NONZERO} then some .FILL_NONZERO
  else if w = {WantElem.fillW, WantElem.ir .EVENODD} then some .FILL_EVENODD
  else if w = {WantElem.strokeW, WantElem.fillW, WantElem.ir .NONZERO} then some .STROKE_FILL_NONZERO
  else if w = {WantElem.strokeW, WantElem.fillW, WantElem.ir .EVENODD} then some .STROKE_FILL_EVENODD
  else Option.none

/-- Want set built by resolve_paint_rule: the stroke tag when both the
stroke width and the stroke color are not None (INHERIT is not None), and
the fill tag together with the intersection-rule value when the fill color
is not None. -/
def GraphicsStyle.want (s : GraphicsStyle) : Finset WantElem :=
  let w : Finset WantElem := ∅
  let w := if s.stroke_width ≠ TriN.none ∧ s.stroke_color ≠ TriN.none
    then insert WantElem.strokeW w else w
  if s.fill_color ≠ TriN.none
    then insert WantElem.fillW (insert (wantIR s.intersection_rule) w) else w

/-- Model of resolve_paint_rule: when the stored paint rule is AUTO the want
set is looked up in the fixed table, defaulting to STROKE_FILL_NONZERO on a
miss; otherwise the stored paint rule is returned unchanged (including, for
an unresolved INHERIT, the sentinel itself). -/
def GraphicsStyle.resolve_paint_rule (s : GraphicsStyle) : Tri PathPaintRule :=
  if s.paint_rule = Tri.val .AUTO then
    match PAINT_RULE_LOOKUP s.want with
    | some r => Tri.val r
    | Option.none => Tri.val .STROKE_FILL_NONZERO
  else s.paint_rule

/-- Model of to_pdf_dict: an ordered dictionary holding the ExtGState type
marker followed by, in PDFStyleKeys order, every stored value that is
neither INHERIT nor None, rendered through render_pdf_primitive.  The
STROKE_ADJUSTMENT key has no setter, is always at its INHERIT default and
is therefore always skipped. -/
def GraphicsStyle.to_pdf_dict (s : GraphicsStyle) : String :=
  render_pdf_primitive (.dict (
    [(("Type"), PDFPrim.name ("ExtGState"))]
    ++ (match s.fill_opacity with | .val q => [(("ca"), PDFPrim.num q)] | _ => [])
    ++ (match s.blend_mode with | .val b => [(("BM"), PDFPrim.name b.value)] | _ => [])
    ++ (match s.stroke_opacity with | .val q => [(("CA"), PDFPrim.num q)] | _ => [])
    ++ (match s.stroke_width with | .val q => [(("LW"), PDFPrim.num q)] | _ => [])
    ++ (match s.stroke_cap_style with | .val v => [(("LC"), PDFPrim.num v.value)] | _ => [])
    ++ (match s.stroke_join_style with | .val v => [(("LJ"), PDFPrim.num v.value)] | _ => [])
    ++ (match s.stroke_miter_limit with | .val q => [(("ML"), PDFPrim.num q)] | _ => [])
    ++ (match s.stroke_dash with
        | .val pr => [(("D"), PDFPrim.arr [PDFPrim.arr (pr.1.map PDFPrim.num), PDFPrim.num pr.2])]
        | _ => [])))

/-- Rendered form of a style with no explicit members: only the ExtGState
type marker.  The module seeds the global registry with this exact string
mapped to None at import time. -/
def emptyExtGState : String :=
  render_pdf_primitive (.dict [(("Type"), PDFPrim.name ("ExtGState"))])

/-- The process-wide style registry: the forward interning dictionary from
rendered style dictionaries to generated names (the seed entry maps the
empty style dictionary to None) and the reverse name lookup dictionary. -/
structure Registry where
  entries : List (String × Option String)
  reverse : List (String × String)
  deriving DecidableEq, Repr

/-- First-match association lookup, the dictionary access of the source
(keys are unique because insertion only happens on a miss). -/
def lookupDict {α : Type} : List (String × α) → String → Option α
  | [], _ => Option.none
  | (k, v) :: t, key => if k = key then some v else lookupDict t key

/-- Registry state at module import: the forward dictionary seeded with the
empty style dictionary mapped to None, the reverse dictionary empty. -/
def initRegistry : Registry := ⟨[(emptyExtGState, Option.none)], []⟩

/-- Model of _new_global_style_name: GS followed by the current size of the
forward dictionary (which includes the seed entry). -/
def new_global_style_name (reg : Registry) : String :=
  ("GS") ++ toString reg.entries.length

/-- Model of _get_or_set_style_dict: serialize the style; an empty
serialization returns no name (in fact the serialization always contains at
least the type marker, so this branch never fires and empty-content styles
are instead caught by the seed entry, which returns None); a hit returns the
stored value unchanged; a miss appends a fresh name to both dictionaries and
returns it. -/
def _get_or_set_style_dict (reg : Registry) (style : GraphicsStyle) :
    Option String × Registry :=
  let sdict := style.to_pdf_dict
  if sdict = "" then (Option.none, reg)
  else
    match lookupDict reg.entries sdict with
    | some v => (v, reg)
    | Option.none =>
        let name := new_global_style_name reg
        (some name, ⟨reg.entries ++ [(sdict, some name)], reg.reverse ++ [(name, sdict)]⟩)

theorem tri_pick_inherit {α : Type} (t : Tri α) : Tri.pick t .inherit = t := by
  cases t <;> rfl

theorem triN_pick_inherit {α : Type} (t : TriN α) : TriN.pick t .inherit = t := by
  cases t <;> rfl

theorem tri_pick_inherit_left {α : Type} (t : Tri α) : Tri.pick .inherit t = t := rfl

theorem triN_pick_inherit_left {α : Type} (t : TriN α) : TriN.pick .inherit t = t := rfl

theorem set_paint_rule_toTriN (s : GraphicsStyle) (t : Tri PathPaintRule) :
    s.set_paint_rule t.toTriN = ({ s with paint_rule := t }, Option.none) := by
  cases t <;> rfl

theorem set_intersection_rule_eq (s : GraphicsStyle) (t : Tri IntersectionRule) :
    s.set_intersection_rule t = ({ s with intersection_rule := t }, Option.none) := by
  cases t <;> rfl

theorem set_blend_mode_eq (s : GraphicsStyle) (t : Tri BlendMode) :
    s.set_blend_mode t = ({ s with blend_mode := t }, Option.none) := by
  cases t <;> rfl

theorem set_stroke_cap_style_eq (s : GraphicsStyle) (t : Tri StrokeCapStyle) :
    s.set_stroke_cap_style t = ({ s with stroke_cap_style := t }, Option.none) := by
  cases t <;> rfl

theorem set_stroke_join_style_eq (s : GraphicsStyle) (t : Tri StrokeJoinStyle) :
    s.set_stroke_join_style t = ({ s with stroke_join_style := t }, Option.none) := by
  cases t <;> rfl

theorem set_fill_opacity_eq (s : GraphicsStyle) (t : TriN ℚ) (h : t.opacityOK) :
    s.set_fill_opacity t = ({ s with fill_opacity := t }, Option.none) := by
  cases t with
  | inherit => rfl
  | none => rfl
  | val q =>
      have hq : (0 ≤ q ∧ q ≤ 1) := h
      simp [GraphicsStyle.set_fill_opacity, check_range, hq.1, hq.2]

theorem set_stroke_opacity_eq (s : GraphicsStyle) (t : TriN ℚ) (h : t.opacityOK) :
    s.set_stroke_opacity t = ({ s with stroke_opacity := t }, Option.none) := by
  cases t with
  | inherit => rfl
  | none => rfl
  | val q =>
      have hq : (0 ≤ q ∧ q ≤ 1) := h
      simp [GraphicsStyle.set_stroke_opacity, check_range, hq.1, hq.2]

/-- Value held by the fill or stroke opacity after the corresponding color
setter ran: the alpha of the assigned color when one is present, the
previous value otherwise. -/
def opacity_after (t : TriN Color) (old : TriN ℚ) : TriN ℚ :=
  match t with
  | .val c =>
      match c.a with
      | some a => .val a
      | Option.none => old
  | _ => old

theorem set_fill_color_eq (s : GraphicsStyle) (t : TriN Color) (h : t.colorOK) :
    s.set_fill_color t =
      ({ s with fill_color := t, fill_opacity := opacity_after t s.fill_opacity },
        Option.none) := by
  cases t with
  | inherit => rfl
  | none => rfl
  | val c =>
      have hc : c.alphaOK := h
      unfold Color.alphaOK at hc
      cases hca : c.a with
      | none => simp only [GraphicsStyle.set_fill_color, opacity_after, hca]
      | some a =>
          rw [hca] at hc
          simp only [GraphicsStyle.set_fill_color, opacity_after, hca,
            GraphicsStyle.set_fill_opacity, check_range, if_pos (And.intro hc.1 hc.2)]

theorem set_stroke_color_eq (s : GraphicsStyle) (t : TriN Color) (h : t.colorOK) :
    s.set_stroke_color t =
      ({ s with stroke_color := t, stroke_opacity := opacity_after t s.stroke_opacity },
        Option.none) := by
  cases t with
  | inherit => rfl
  | none => rfl
  | val c =>
      have hc : c.alphaOK := h
      unfold Color.alphaOK at hc
      cases hca : c.a with
      | none => simp only [GraphicsStyle.set_stroke_color, opacity_after, hca]
      | some a =>
          rw [hca] at hc
          simp only [GraphicsStyle.set_stroke_color, opacity_after, hca,
            GraphicsStyle.set_stroke_opacity, check_range, if_pos (And.intro hc.1 hc.2)]

/-- Value held by the stored dash pair after the dash-pattern setter ran on a
getter value. -/
def dash_after (t : Tri (List ℚ)) (old : Tri (List ℚ × ℚ)) : Tri (List ℚ × ℚ) :=
  match t with
  | .inherit => .inherit
  | .val l =>
      match old with
      | .val pr => .val (l, pr.2)
      | .inherit => .val (l, 0)

theorem set_dash_pattern_toTriN (s : GraphicsStyle) (t : Tri (List ℚ)) :
    s.set_stroke_dash_pattern t.toTriN =
      ({ s with stroke_dash := dash_after t s.stroke_dash }, Option.none) := by
  cases t with
  | inherit => rfl
  | val l =>
      unfold GraphicsStyle.set_stroke_dash_pattern dash_after Tri.toTriN
      cases s.stroke_dash <;> rfl

/-- The claim C2 theorem.  Merging any well-formed style s as the child with
the all-INHERIT style as the parent gives back exactly s with no exception,
and so does merging the all-INHERIT style as the child with s as the parent:
the all-INHERIT style (the freshly constructed GraphicsStyle) is a two-sided
identity for GraphicsStyle.merge, property by property over
MERGE_PROPERTIES. -/
theorem graphics_style_merge_inherit_identity (s : GraphicsStyle) (h : s.WF) :
    GraphicsStyle.merge {} s = (s, Option.none) ∧
      GraphicsStyle.merge s {} = (s, Option.none) := by
  obtain ⟨hfo, hso, hfc, hsc⟩ := h
  obtain ⟨pr, ac, ir, fc, fo, sc, so, bm, sw, cs, js, ml, dash⟩ := s
  constructor
  · show GraphicsStyle.merge {} ⟨pr, ac, ir, fc, fo, sc, so, bm, sw, cs, js, ml, dash⟩ = _
    unfold GraphicsStyle.merge
    simp only [tri_pick_inherit, triN_pick_inherit, tri_pick_inherit_left,
      triN_pick_inherit_left, set_paint_rule_toTriN, mstep,
      GraphicsStyle.set_auto_close, set_intersection_rule_eq, set_fill_color_eq _ _ hfc,
      set_fill_opacity_eq _ _ hfo, set_stroke_color_eq _ _ hsc, set_stroke_opacity_eq _ _ hso,
      set_blend_mode_eq, GraphicsStyle.set_stroke_width, set_stroke_cap_style_eq,
      set_stroke_join_style_eq, GraphicsStyle.set_stroke_miter_limit, set_dash_pattern_toTriN]
    cases dash with
    | inherit => rfl
    | val pr2 => rfl
  · show GraphicsStyle.merge ⟨pr, ac, ir, fc, fo, sc, so, bm, sw, cs, js, ml, dash⟩ {} = _
    unfold GraphicsStyle.merge
    simp only [tri_pick_inherit, triN_pick_inherit, tri_pick_inherit_left,
      triN_pick_inherit_left, set_paint_rule_toTriN, mstep,
      GraphicsStyle.set_auto_close, set_intersection_rule_eq, set_fill_color_eq _ _ hfc,
      set_fill_opacity_eq _ _ hfo, set_stroke_color_eq _ _ hsc, set_stroke_opacity_eq _ _ hso,
      set_blend_mode_eq, GraphicsStyle.set_stroke_width, set_stroke_cap_style_eq,
      set_stroke_join_style_eq, GraphicsStyle.set_stroke_miter_limit, set_dash_pattern_toTriN]
    cases dash with
    | inherit => rfl
    | val pr2 => rfl

/-- Witness for claim C2 at a concrete nontrivial style. -/
theorem graphics_style_merge_inherit_identity_witness :
    GraphicsStyle.merge {}
        { paint_rule := .val .AUTO, fill_color := .val (.rgb 1 0 0 (some 1)),
          stroke_width := .val 2, stroke_dash := .val ([1, 2], 3) } =
      ({ paint_rule := .val .AUTO, fill_color := .val (.rgb 1 0 0 (some 1)),
          stroke_width := .val 2, stroke_dash := .val ([1, 2], 3) }, Option.none) :=
  (graphics_style_merge_inherit_identity _
    (by simp [GraphicsStyle.WF, TriN.opacityOK, TriN.colorOK, Color.alphaOK, Color.a])).1

/-- The claim C1 theorem.  For every style whose stored paint rule is AUTO,
resolve_paint_rule returns STROKE when stroke color and stroke width hold
values and the fill color is the explicit None; FILL_NONZERO when only the
fill color holds a value and the intersection rule is the default NONZERO;
DONT_PAINT when fill color, stroke color and stroke width are all the
explicit None; and STROKE_FILL_NONZERO, not DONT_PAINT, whenever the want
set is not a key of the fixed lookup table. -/
theorem resolve_paint_rule_auto_spec (s : GraphicsStyle)
    (hauto : s.paint_rule = Tri.val .AUTO) :
    (∀ c w, s.stroke_color = TriN.val c → s.stroke_width = TriN.val w →
      s.fill_color = TriN.none → s.resolve_paint_rule = Tri.val .STROKE) ∧
    (∀ c, s.fill_color = TriN.val c → s.stroke_color = TriN.none →
      s.stroke_width = TriN.none → s.intersection_rule = Tri.val .NONZERO →
      s.resolve_paint_rule = Tri.val .FILL_NONZERO) ∧
    (s.fill_color = TriN.none → s.stroke_color = TriN.none →
      s.stroke_width = TriN.none → s.resolve_paint_rule = Tri.val .DONT_PAINT) ∧
    (PAINT_RULE_LOOKUP s.want = Option.none →
      s.resolve_paint_rule = Tri.val .STROKE_FILL_NONZERO) := by
  refine ⟨?_, ?_, ?_, ?_⟩
  · intro c w hsc hsw hfc
    simp only [GraphicsStyle.resolve_paint_rule, GraphicsStyle.want, hauto, hsc, hsw, hfc]
    simp only [ne_eq, reduceCtorEq, not_false_eq_true, and_self, if_true,
      not_true_eq_false, if_false]
    decide
  · intro c hfc hsc hsw hir
    simp only [GraphicsStyle.resolve_paint_rule, GraphicsStyle.want, hauto, hfc, hsc, hsw, hir]
    simp only [ne_eq, reduceCtorEq, not_false_eq_true, and_self, and_false, if_true,
      not_true_eq_false, if_false, wantIR]
    decide
  · intro hfc hsc hsw
    simp only [GraphicsStyle.resolve_paint_rule, GraphicsStyle.want, hauto, hfc, hsc, hsw]
    simp only [ne_eq, reduceCtorEq, not_false_eq_true, and_self, and_false, if_true,
      not_true_eq_false, if_false]
    decide
  · intro hmiss
    simp only [GraphicsStyle.resolve_paint_rule, hauto, hmiss]
    simp

/-- Witness for claim C1 at four concrete styles, one per clause. -/
theorem resolve_paint_rule_auto_spec_witness :
    GraphicsStyle.resolve_paint_rule
        { paint_rule := .val .AUTO, stroke_color := .val (.rgb 0 0 0 Option.none),
          stroke_width := .val 1, fill_color := .none } = Tri.val .STROKE ∧
    GraphicsStyle.resolve_paint_rule
        { paint_rule := .val .AUTO, fill_color := .val (.gray 0 Option.none),
          stroke_color := .none, stroke_width := .none,
          intersection_rule := .val .NONZERO } = Tri.val .FILL_NONZERO ∧
    GraphicsStyle.resolve_paint_rule
        { paint_rule := .val .AUTO, fill_color := .none, stroke_color := .none,
          stroke_width := .none } = Tri.val .DONT_PAINT ∧
    GraphicsStyle.resolve_paint_rule
        { paint_rule := .val .AUTO, fill_color := .val (.gray 0 Option.none),
          stroke_color := .none, stroke_width := .none,
          intersection_rule := .inherit } = Tri.val .STROKE_FILL_NONZERO :=
  ⟨((resolve_paint_rule_auto_spec _ rfl).1) _ _ rfl rfl rfl,
   ((resolve_paint_rule_auto_spec _ rfl).2.1) _ rfl rfl rfl rfl,
   ((resolve_paint_rule_auto_spec _ rfl).2.2.1) rfl rfl rfl,
   ((resolve_paint_rule_auto_spec _ rfl).2.2.2) (by decide)⟩

/-- Counterexample for claim C9.  The claim asserts that the internally
intended mapping of None to DONT_PAINT never takes effect; in fact the first
conditional of the setter is not an elif, so on a None input the instance
attribute is assigned DONT_PAINT first and only then does the fall-through
call PathPaintRule.coerce(None) raise TypeError.  At the default style, the
state left behind by the failed assignment holds DONT_PAINT. -/
theorem paint_rule_none_counterexample :
    (GraphicsStyle.set_paint_rule {} TriN.none).1.paint_rule
        = Tri.val PathPaintRule.DONT_PAINT ∧
      (GraphicsStyle.set_paint_rule {} TriN.none).2 = some PyError.typeError := by
  constructor <;> rfl

/-- The claim C9 theorem as amended.  Assigning None to paint_rule raises
TypeError (the None branch falls through into PathPaintRule.coerce on None),
so the assignment never completes normally; but before the exception the
setter has already stored DONT_PAINT, so the mapping of None to DONT_PAINT
does take effect on the object state. -/
theorem paint_rule_none_raises (s : GraphicsStyle) :
    s.set_paint_rule TriN.none =
      ({ s with paint_rule := Tri.val PathPaintRule.DONT_PAINT },
        some PyError.typeError) := rfl

/-- The claim C10 theorem.  Every plain string value (the pystr constructor,
which is neither Raw nor Name and has no pdf_repr) renders to the one
constant text that interpolates the builtin type str itself, parenthesized;
the characters of the input never appear in the output. -/
theorem render_pdf_primitive_str_constant (s : String) :
    render_pdf_primitive (.pystr s) = ("(") ++ str_class_text ++ (")") := by
  rw [render_pdf_primitive]

/-- Forward-map extension order between registry states: every key bound in
the first state is bound to the same value in the second. -/
def Registry.Ext (r r2 : Registry) : Prop :=
  ∀ k v, lookupDict r.entries k = some v → lookupDict r2.entries k = some v

theorem Registry.Ext.rfl (r : Registry) : Registry.Ext r r := fun _ _ h => h

theorem Registry.Ext.trans {a b c : Registry} (h1 : Registry.Ext a b)
    (h2 : Registry.Ext b c) : Registry.Ext a c :=
  fun k v h => h2 k v (h1 k v h)

theorem lookupDict_append_left {α : Type} (l t : List (String × α)) (k : String)
    (v : α) (h : lookupDict l k = some v) : lookupDict (l ++ t) k = some v := by
  induction l with
  | nil => simp [lookupDict] at h
  | cons hd tl ih =>
      obtain ⟨k1, v1⟩ := hd
      rw [List.cons_append]
      by_cases hk : k1 = k
      · rw [lookupDict, if_pos hk] at h ⊢
        exact h
      · rw [lookupDict, if_neg hk] at h ⊢
        exact ih h

theorem lookupDict_append_self {α : Type} (l : List (String × α)) (k : String)
    (v : α) (h : lookupDict l k = Option.none) :
    lookupDict (l ++ [(k, v)]) k = some v := by
  induction l with
  | nil => simp [lookupDict]
  | cons hd tl ih =>
      obtain ⟨k1, v1⟩ := hd
      rw [List.cons_append]
      by_cases hk : k1 = k
      · rw [lookupDict, if_pos hk] at h
        exact absurd h (by simp)
      · rw [lookupDict, if_neg hk] at h ⊢
        exact ih h

theorem render_dict_ne_empty (entries : List (String × PDFPrim)) :
    render_pdf_primitive (.dict entries) ≠ "" := by
  intro h
  rw [render_pdf_primitive] at h
  have hd := congrArg String.data h
  simp only [String.data_append] at hd
  simp at hd

theorem to_pdf_dict_ne_empty (s : GraphicsStyle) : s.to_pdf_dict ≠ "" :=
  render_dict_ne_empty _

theorem get_or_set_entries_append (reg : Registry) (s : GraphicsStyle) :
    ∃ t, (_get_or_set_style_dict reg s).2.entries = reg.entries ++ t := by
  simp only [_get_or_set_style_dict]
  split
  · exact ⟨[], (List.append_nil _).symm⟩
  · split
    · exact ⟨[], (List.append_nil _).symm⟩
    · exact ⟨[(s.to_pdf_dict, some (new_global_style_name reg))], rfl⟩

theorem get_or_set_ext (reg : Registry) (s : GraphicsStyle) :
    Registry.Ext reg (_get_or_set_style_dict reg s).2 := by
  intro k v h
  simp only [_get_or_set_style_dict]
  split
  · exact h
  · split
    · exact h
    · exact lookupDict_append_left _ _ _ _ h

theorem get_or_set_find (reg : Registry) (s : GraphicsStyle) :
    lookupDict (_get_or_set_style_dict reg s).2.entries s.to_pdf_dict =
      some (_get_or_set_style_dict reg s).1 := by
  simp only [_get_or_set_style_dict]
  split
  · exact absurd (by assumption) (to_pdf_dict_ne_empty s)
  · split
    · assumption
    · exact lookupDict_append_self _ _ _ (by assumption)

theorem get_or_set_stable (reg : Registry) (s : GraphicsStyle) (reg2 : Registry)
    (hext : Registry.Ext (_get_or_set_style_dict reg s).2 reg2)
    (s2 : GraphicsStyle) (heq : s2.to_pdf_dict = s.to_pdf_dict) :
    _get_or_set_style_dict reg2 s2 = ((_get_or_set_style_dict reg s).1, reg2) := by
  have h2 : lookupDict reg2.entries s.to_pdf_dict =
      some (_get_or_set_style_dict reg s).1 := hext _ _ (get_or_set_find reg s)
  set X := (_get_or_set_style_dict reg s).1 with hX
  simp only [_get_or_set_style_dict]
  rw [heq, if_neg (to_pdf_dict_ne_empty s), h2]

/-- The claim C6 theorem.  The style registry is an append-only interning
table: a call only ever appends to the forward dictionary and preserves
every existing binding; once a serialized content has been interned, any
later call on any style with that same serialized content, against any
extension of the registry, returns the very name produced the first time and
leaves the registry untouched (so identical style dictionaries from
unrelated drawings collapse to one entry); and a style whose serialization
is the empty ExtGState dictionary receives no name, because the seed entry
binds that content to None. -/
theorem style_registry_interning (reg : Registry) (s s2 : GraphicsStyle) :
    (∃ t, (_get_or_set_style_dict reg s).2.entries = reg.entries ++ t) ∧
    Registry.Ext reg (_get_or_set_style_dict reg s).2 ∧
    (∀ reg2, Registry.Ext (_get_or_set_style_dict reg s).2 reg2 →
      s2.to_pdf_dict = s.to_pdf_dict →
      _get_or_set_style_dict reg2 s2 = ((_get_or_set_style_dict reg s).1, reg2)) ∧
    (lookupDict reg.entries emptyExtGState = some Option.none →
      s.to_pdf_dict = emptyExtGState →
      _get_or_set_style_dict reg s = (Option.none, reg)) := by
  refine ⟨get_or_set_entries_append reg s, get_or_set_ext reg s,
    fun reg2 hext heq => get_or_set_stable reg s reg2 hext s2 heq, ?_⟩
  intro hseed hempty
  have hne : emptyExtGState ≠ "" := render_dict_ne_empty _
  simp only [_get_or_set_style_dict]
  rw [hempty, if_neg hne, hseed]

/-- Witness for claim C6: the initial registry, a style with a stroke width
(which interns a fresh dictionary) and the default style (whose content is
the seeded empty dictionary and receives no name). -/
theorem style_registry_interning_witness :
    (∃ t, (_get_or_set_style_dict initRegistry { stroke_width := .val 1 }).2.entries
        = initRegistry.entries ++ t) ∧
    (_get_or_set_style_dict
        (_get_or_set_style_dict initRegistry { stroke_width := .val 1 }).2
        { stroke_width := .val 1 }
      = ((_get_or_set_style_dict initRegistry { stroke_width := .val 1 }).1,
          (_get_or_set_style_dict initRegistry { stroke_width := .val 1 }).2)) ∧
    _get_or_set_style_dict initRegistry {} = (Option.none, initRegistry) := by
  refine ⟨(style_registry_interning initRegistry { stroke_width := .val 1 } {}).1,
    (style_registry_interning initRegistry { stroke_width := .val 1 }
        { stroke_width := .val 1 }).2.2.1 _ (Registry.Ext.rfl _) rfl,
    (style_registry_interning initRegistry {} {}).2.2.2
      (by simp [initRegistry, lookupDict])
      (by simp [GraphicsStyle.to_pdf_dict, emptyExtGState])⟩

/-- Round half to even of a real to an integer, the noncomputable twin of
round_half_even used where the source operates on transcendental values
(the single number_to_str of the source is modeled once per number layer,
both wrappers sharing format_scaled). -/
noncomputable def round_half_even_real (x : ℝ) : ℤ :=
  let n := ⌊x⌋
  if x - n < 1/2 then n
  else if (1 : ℝ)/2 < x - n then n + 1
  else if n % 2 = 0 then n else n + 1

/-- Model of number_to_str on the real (geometry) layer. -/
noncomputable def number_to_str_real (x : ℝ) : String :=
  format_scaled (decide (x < 0)) (round_half_even_real (x * 10000)).natAbs

/-- A point of the two-dimensional coordinate frame, with real coordinates
standing in for floats. -/
structure Point where
  x : ℝ
  y : ℝ

instance : Add Point := ⟨fun p q => ⟨p.x + q.x, p.y + q.y⟩⟩

instance : Sub Point := ⟨fun p q => ⟨p.x - q.x, p.y - q.y⟩⟩

instance : Neg Point := ⟨fun p => ⟨-p.x, -p.y⟩⟩

/-- Scalar multiplication of a point (the __mul__ of the source). -/
instance : HMul Point ℝ Point := ⟨fun p k => ⟨p.x * k, p.y * k⟩⟩

/-- Model of Point.render: the two coordinates separated by a space. -/
noncomputable def Point.render (p : Point) : String :=
  number_to_str_real p.x ++ (" ") ++ number_to_str_real p.y

/-- Model of Point.dot. -/
def Point.dot (p q : Point) : ℝ := p.x * q.x + p.y * q.y

/-- Model of Point.mag: the source raises the coordinate square sum to the
power one half, which on its nonnegative argument is the square root. -/
noncomputable def Point.mag (p : Point) : ℝ := Real.sqrt (p.x ^ 2 + p.y ^ 2)

/-- A two-dimensional affine transformation matrix acting on row vectors. -/
structure Transform where
  a : ℝ
  b : ℝ
  c : ℝ
  d : ℝ
  e : ℝ
  f : ℝ

/-- Model of Transform.identity. -/
def Transform.identity : Transform := ⟨1, 0, 0, 1, 0, 0⟩

/-- Model of Transform.translation. -/
def Transform.translation (x y : ℝ) : Transform := ⟨1, 0, 0, 1, x, y⟩

/-- Model of Transform.scaling with both ratios given (the source defaults
the second to the first when omitted; call sites spell that out). -/
def Transform.scaling (x y : ℝ) : Transform := ⟨x, 0, 0, y, 0, 0⟩

/-- Model of Transform.rotation (angle in radians, clockwise positive). -/
noncomputable def Transform.rotation (theta : ℝ) : Transform :=
  ⟨Real.cos theta, Real.sin theta, -Real.sin theta, Real.cos theta, 0, 0⟩

/-- Model of math.radians, used by rotation_d and the arc builder API. -/
noncomputable def radians (d : ℝ) : ℝ := d * (Real.pi / 180)

/-- Model of Transform.rotation_d (angle in degrees). -/
noncomputable def Transform.rotation_d (theta_d : ℝ) : Transform :=
  Transform.rotation (radians theta_d)

/-- Model of Transform composition (the __matmul__ of the source): the
left-hand transform applies first. -/
def Transform.matmul (self other : Transform) : Transform :=
  ⟨self.a * other.a + self.b * other.c,
   self.a * other.b + self.b * other.d,
   self.c * other.a + self.d * other.c,
   self.c * other.b + self.d * other.d,
   self.e * other.a + self.f * other.c + other.e,
   self.e * other.b + self.f * other.d + other.f⟩

/-- Application of a transform to a point (the __matmul__ of Point). -/
def Point.matmul (p : Point) (t : Transform) : Point :=
  ⟨t.a * p.x + t.c * p.y + t.e, t.b * p.x + t.d * p.y + t.f⟩

/-- Model of Transform.translate. -/
def Transform.translate (self : Transform) (x y : ℝ) : Transform :=
  self.matmul (Transform.translation x y)

/-- Model of Transform.scale with both ratios given. -/
def Transform.scale (self : Transform) (x y : ℝ) : Transform :=
  self.matmul (Transform.scaling x y)

/-- Model of Transform.rotate (radians). -/
noncomputable def Transform.rotate (self : Transform) (theta : ℝ) : Transform :=
  self.matmul (Transform.rotation theta)

/-- Model of Transform.about: bracket the transform between translations so
it acts about the given point. -/
def Transform.about (self : Transform) (x y : ℝ) : Transform :=
  (Transform.translation (-x) (-y)).matmul (self.matmul (Transform.translation x y))

/-- Model of Transform.render: the six coefficients followed by the cm
operator; the last item passes through unchanged. -/
noncomputable def Transform.render {α : Type} (t : Transform) (last_item : α) :
    String × α :=
  (number_to_str_real t.a ++ (" ") ++ number_to_str_real t.b ++ (" ")
    ++ number_to_str_real t.c ++ (" ") ++ number_to_str_real t.d ++ (" ")
    ++ number_to_str_real t.e ++ (" ") ++ number_to_str_real t.f ++ (" cm"),
   last_item)

/-- Model of Point.angle: signed angle between two vectors, clockwise
positive, computed through the arccosine of the normalized dot product
rounded to eight decimals (the guard of the source against rounding
artifacts pushing the quotient out of the arccosine domain). -/
noncomputable def Point.angle (self other : Point) : ℝ :=
  let signifier := self.x * other.y - self.y * other.x
  let sign : ℝ := if 0 ≤ signifier then 1 else -1
  sign * Real.arccos
    ((round_half_even_real (self.dot other / (self.mag * other.mag) * 10 ^ 8) : ℝ) / 10 ^ 8)

/-- Loop body of Arc.subdivde_sweep: the generator yields, for each of the
given number of chunks, the canonical unit-circle control points rotated by
the running offset (the swept angle consumed so far). -/
noncomputable def subdivde_loop (sweep_angle sweep_segment : ℝ)
    (ctrl1 ctrl2 endp : Point) : ℕ → ℝ → List (Point × Point × Point)
  | 0, _ => []
  | n + 1, sweep_left =>
      let offset := sweep_angle - sweep_left
      let transform := Transform.rotation offset
      (ctrl1.matmul transform, ctrl2.matmul transform, endp.matmul transform)
        :: subdivde_loop sweep_angle sweep_segment ctrl1 ctrl2 endp n
            (sweep_left - sweep_segment)

/-- Model of Arc.subdivde_sweep (source spelling): subdivide the absolute
sweep angle into ceil(sweep / quarter-turn) equal segments, compute one
cubic Bezier approximation of the first segment on the unit circle, and
yield it rotated into place for each segment.  Real division by zero is
total (zero) in the model where the source would raise on a zero sweep. -/
noncomputable def subdivde_sweep (sweep_angle : ℝ) : List (Point × Point × Point) :=
  let sweep_angle := |sweep_angle|
  let quarterturn := Real.pi / 2
  let chunks := (⌈sweep_angle / quarterturn⌉).toNat
  let sweep_segment := sweep_angle / chunks
  let cos_t := Real.cos sweep_segment
  let sin_t := Real.sin sweep_segment
  let kappa := 4 / 3 * Real.tan (sweep_segment / 4)
  let ctrl1 : Point := ⟨1, kappa⟩
  let ctrl2 : Point := ⟨cos_t + kappa * sin_t, sin_t - kappa * cos_t⟩
  let endp : Point := ⟨cos_t, sin_t⟩
  subdivde_loop sweep_angle sweep_segment ctrl1 ctrl2 endp chunks sweep_angle

/-- Model of Arc._approximate_arc on the resolved end point of the previous
element: the standard endpoint-to-center parameterization with the radicand
rounded to eight decimals before the square root (Real.sqrt is total and
clamps a still-negative radicand to zero where math.sqrt would raise). -/
noncomputable def approximate_arc (radii0 : Point) (rotation : ℝ)
    (large sweep : Bool) (endp last_point : Point) :
    List (Point × Point × Point) :=
  let reverse := Transform.rotation (-rotation)
  let forward := Transform.rotation rotation
  let prime := ((last_point - endp) * (0.5 : ℝ)).matmul reverse
  let lam_da := (prime.x / radii0.x) ^ 2 + (prime.y / radii0.y) ^ 2
  let radii : Point :=
    if 1 < lam_da then ⟨Real.sqrt lam_da * radii0.x, Real.sqrt lam_da * radii0.y⟩
    else radii0
  let sign : ℝ := if large ≠ sweep then 1 else -1
  let rxry2 := (radii.x * radii.y) ^ 2
  let rxpy2 := (radii.x * prime.y) ^ 2
  let rypx2 := (radii.y * prime.x) ^ 2
  let centerprime :=
    (Point.mk (radii.x * prime.y / radii.y) (-(radii.y * prime.x / radii.x))) *
      (sign * Real.sqrt
        (((round_half_even_real ((rxry2 - rxpy2 - rypx2) * 10 ^ 8) : ℝ) / 10 ^ 8)
          / (rxpy2 + rypx2)))
  let center := (centerprime.matmul forward) + ((last_point + endp) * (0.5 : ℝ))
  let arcstart : Point :=
    ⟨(prime.x - centerprime.x) / radii.x, (prime.y - centerprime.y) / radii.y⟩
  let arcend : Point :=
    ⟨(-prime.x - centerprime.x) / radii.x, (-prime.y - centerprime.y) / radii.y⟩
  let theta := (Point.mk 1 0).angle arcstart
  let deltatheta0 := arcstart.angle arcend
  let deltatheta :=
    if sweep = false ∧ 0 < deltatheta0 then deltatheta0 - 2 * Real.pi
    else if sweep = true ∧ deltatheta0 < 0 then deltatheta0 + 2 * Real.pi
    else deltatheta0
  let sweep_sign : ℝ := if 0 ≤ deltatheta then 1 else -1
  let final_tf :=
    ((((Transform.scaling 1 sweep_sign).rotate theta).scale radii.x radii.y).rotate
        rotation).translate center.x center.y
  (subdivde_sweep deltatheta).map
    (fun seg => (seg.1.matmul final_tf, seg.2.1.matmul final_tf, seg.2.2.matmul final_tf))

/-- The closed set of path elements.  Coordinates are reals; the rotation of
an arc element is stored in radians, exactly as the builder stores the
result of math.radians. -/
inductive PathElem where
  | move (pt : Point)
  | relativeMove (pt : Point)
  | line (pt : Point)
  | relativeLine (pt : Point)
  | horizontalLine (x : ℝ)
  | relativeHorizontalLine (x : ℝ)
  | verticalLine (y : ℝ)
  | relativeVerticalLine (y : ℝ)
  | bezierCurve (c1 c2 endp : Point)
  | relativeBezierCurve (c1 c2 endp : Point)
  | quadraticBezierCurve (ctrl endp : Point)
  | relativeQuadraticBezierCurve (ctrl endp : Point)
  | arc (radii : Point) (rotation : ℝ) (large : Bool) (sweep : Bool) (endp : Point)
  | relativeArc (radii : Point) (rotation : ℝ) (large : Bool) (sweep : Bool) (endp : Point)
  | rectangle (org size : Point)
  | implicitClose
  | close

/-- The end_point property of the elements that define one.  The elements
without an end_point in the source (the relative variants, arcs, rectangles
and closes) never occur as the resolved previous element, because rendering
always returns an absolute element with an end point as the new previous;
Python would raise AttributeError on them and the model returns the origin. -/
def PathElem.end_point : PathElem → Point
  | .move pt => pt
  | .line pt => pt
  | .bezierCurve _ _ endp => endp
  | .quadraticBezierCurve _ endp => endp
  | _ => ⟨0, 0⟩

/-- Model of the _render_move helper. -/
noncomputable def _render_move (pt : Point) : String := pt.render ++ (" m")

/-- Model of the _render_line helper. -/
noncomputable def _render_line (pt : Point) : String := pt.render ++ (" l")

/-- Model of the _render_curve helper. -/
noncomputable def _render_curve (ctrl1 ctrl2 endp : Point) : String :=
  ctrl1.render ++ (" ") ++ ctrl2.render ++ (" ") ++ endp.render ++ (" c")

/-- Model of QuadraticBezierCurve.to_cubic_curve: degree raising about the
given start point. -/
noncomputable def to_cubic_curve (ctrl endp start_point : Point) : Point × Point :=
  (⟨start_point.x + 2 * (ctrl.x - start_point.x) / 3,
    start_point.y + 2 * (ctrl.y - start_point.y) / 3⟩,
   ⟨endp.x + 2 * (ctrl.x - endp.x) / 3,
    endp.y + 2 * (ctrl.y - endp.y) / 3⟩)

/-- Truthiness of the auto_close flag as the if statement of the source sees
it: True and the INHERIT sentinel (the Python Ellipsis) are truthy, False is
falsy.  A resolved style never carries INHERIT here because the base style
of every render sets auto_close. -/
def autoCloseTruthy : Tri Bool → Bool
  | .inherit => true
  | .val b => b

/-- Body of Arc.render on the resolved absolute end point: approximate, and
on an empty approximation return empty text with the previous element
unchanged, else join the curve renderings (each cubic rendering ignores its
own previous element) and return the final curve as the new previous. -/
noncomputable def render_arc (radii : Point) (rotation : ℝ) (large sweep : Bool)
    (endp : Point) (last_item : PathElem) : String × PathElem :=
  let curves := approximate_arc radii rotation large sweep endp last_item.end_point
  match curves.getLast? with
  | Option.none => ("", last_item)
  | some lastc =>
      (String.intercalate (" ")
        (curves.map (fun seg => _render_curve seg.1 seg.2.1 seg.2.2)),
       .bezierCurve lastc.1 lastc.2.1 lastc.2.2)

/-- Model of the render method of each path element: from the resolved style
and the previous element, the operator text and the new previous element.
The path_gsds argument of the source is unused by every element and is not
a parameter here.  Each branch follows the corresponding class. -/
noncomputable def PathElem.render (e : PathElem) (style : GraphicsStyle)
    (last_item : PathElem) : String × PathElem :=
  match e with
  | .move pt => (_render_move pt, .move pt)
  | .relativeMove pt =>
      let point := last_item.end_point + pt
      (_render_move point, .move point)
  | .line pt => (_render_line pt, .line pt)
  | .relativeLine pt =>
      let point := last_item.end_point + pt
      (_render_line point, .line point)
  | .horizontalLine x =>
      let endp : Point := ⟨x, last_item.end_point.y⟩
      (_render_line endp, .line endp)
  | .relativeHorizontalLine x =>
      let endp : Point := ⟨last_item.end_point.x + x, last_item.end_point.y⟩
      (_render_line endp, .line endp)
  | .verticalLine y =>
      let endp : Point := ⟨last_item.end_point.x, y⟩
      (_render_line endp, .line endp)
  | .relativeVerticalLine y =>
      let endp : Point := ⟨last_item.end_point.x, last_item.end_point.y + y⟩
      (_render_line endp, .line endp)
  | .bezierCurve c1 c2 endp => (_render_curve c1 c2 endp, .bezierCurve c1 c2 endp)
  | .relativeBezierCurve c1 c2 endp =>
      let last_point := last_item.end_point
      let c1a := last_point + c1
      let c2a := last_point + c2
      let enda := last_point + endp
      (_render_curve c1a c2a enda, .bezierCurve c1a c2a enda)
  | .quadraticBezierCurve ctrl endp =>
      let cc := to_cubic_curve ctrl endp last_item.end_point
      (_render_curve cc.1 cc.2 endp, .quadraticBezierCurve ctrl endp)
  | .relativeQuadraticBezierCurve ctrl endp =>
      let last_point := last_item.end_point
      let ctrla := last_point + ctrl
      let enda := last_point + endp
      let cc := to_cubic_curve ctrla enda last_point
      (_render_curve cc.1 cc.2 enda, .quadraticBezierCurve ctrla enda)
  | .arc radii rotation large sweep endp =>
      render_arc radii rotation large sweep endp last_item
  | .relativeArc radii rotation large sweep endp =>
      render_arc radii rotation large sweep (last_item.end_point + endp) last_item
  | .rectangle org size =>
      (org.render ++ (" ") ++ size.render ++ (" re"), .line org)
  | .implicitClose =>
      if autoCloseTruthy style.auto_close then (("h"), last_item)
      else (("") , last_item)
  | .close => (("h"), last_item)

/-- Shallow model of the PaintedPath builder cursor: the ordered elements
appended to the current graphics context, the closed flag, and the pending
starter move.  The context-tree bookkeeping of the source (the root and
current graphics context and the close-context pointer) evolves identically
on both sides of every equation proved about this model and is not
represented. -/
structure PaintedPathBuilder where
  items : List PathElem
  closed : Bool
  starter_move : Option PathElem

/-- Model of PaintedPath.add_path_element: a pending starter move opens the
subpath (clearing the closed flag) and is appended before the new item. -/
def PaintedPathBuilder.add_path_element (b : PaintedPathBuilder) (item : PathElem) :
    PaintedPathBuilder :=
  match b.starter_move with
  | some m => { items := b.items ++ [m, item], closed := false, starter_move := Option.none }
  | Option.none => { b with items := b.items ++ [item] }

/-- Model of PaintedPath.line_to. -/
def PaintedPathBuilder.line_to (b : PaintedPathBuilder) (x y : ℝ) : PaintedPathBuilder :=
  b.add_path_element (.line ⟨x, y⟩)

/-- Model of PaintedPath.line_relative. -/
def PaintedPathBuilder.line_relative (b : PaintedPathBuilder) (dx dy : ℝ) :
    PaintedPathBuilder :=
  b.add_path_element (.relativeLine ⟨dx, dy⟩)

/-- Model of PaintedPath.arc_to: a zero radius bypasses the arc machinery
and delegates to line_to; otherwise the arc element is appended with the
radii made absolute and the rotation converted to radians. -/
noncomputable def PaintedPathBuilder.arc_to (b : PaintedPathBuilder)
    (rx ry rotation : ℝ) (large_arc positive_sweep : Bool) (x y : ℝ) :
    PaintedPathBuilder :=
  if rx = 0 ∨ ry = 0 then b.line_to x y
  else b.add_path_element (.arc ⟨|rx|, |ry|⟩ (radians rotation) large_arc positive_sweep ⟨x, y⟩)

/-- Model of PaintedPath.arc_relative: the degenerate-radius bypass goes to
line_relative. -/
noncomputable def PaintedPathBuilder.arc_relative (b : PaintedPathBuilder)
    (rx ry rotation : ℝ) (large_arc positive_sweep : Bool) (dx dy : ℝ) :
    PaintedPathBuilder :=
  if rx = 0 ∨ ry = 0 then b.line_relative dx dy
  else b.add_path_element
    (.relativeArc ⟨|rx|, |ry|⟩ (radians rotation) large_arc positive_sweep ⟨dx, dy⟩)

/-- Sequential rendering of a list of path elements with a threaded previous
element, concatenating the operator texts (used to state that equal builder
states render to equal operator text). -/
noncomputable def renderElems (style : GraphicsStyle) :
    List PathElem → PathElem → List String
  | [], _ => []
  | e :: rest, last_item =>
      let r := e.render style last_item
      r.1 :: renderElems style rest r.2

/-- The claim C3 theorem.  For every builder state and end point, arc_to
with a zero x-radius or a zero y-radius is exactly line_to to the same end
point, arc_relative is exactly line_relative to the same offset, and hence
the appended path elements and the operator text rendered from them are
identical: the arc machinery is bypassed entirely. -/
theorem arc_to_degenerate_is_line_to (b : PaintedPathBuilder)
    (rx ry rotation : ℝ) (large_arc positive_sweep : Bool) (x y : ℝ)
    (h : rx = 0 ∨ ry = 0) :
    b.arc_to rx ry rotation large_arc positive_sweep x y = b.line_to x y ∧
    b.arc_relative rx ry rotation large_arc positive_sweep x y = b.line_relative x y ∧
    ∀ (style : GraphicsStyle) (last_item : PathElem),
      renderElems style (b.arc_to rx ry rotation large_arc positive_sweep x y).items
          last_item
        = renderElems style (b.line_to x y).items last_item := by
  have h1 : b.arc_to rx ry rotation large_arc positive_sweep x y = b.line_to x y := by
    unfold PaintedPathBuilder.arc_to
    rw [if_pos h]
  have h2 : b.arc_relative rx ry rotation large_arc positive_sweep x y
      = b.line_relative x y := by
    unfold PaintedPathBuilder.arc_relative
    rw [if_pos h]
  exact ⟨h1, h2, fun style last_item => by rw [h1]⟩

/-- Witness for claim C3 at a concrete builder state and concrete arc
arguments with a zero x-radius. -/
theorem arc_to_degenerate_is_line_to_witness :
    PaintedPathBuilder.arc_to ⟨[], true, Option.none⟩ 0 1 45 true false 3 4
      = PaintedPathBuilder.line_to ⟨[], true, Option.none⟩ 3 4 :=
  (arc_to_degenerate_is_line_to ⟨[], true, Option.none⟩ 0 1 45 true false 3 4
    (Or.inl rfl)).1

theorem subdivde_loop_length (sa ss : ℝ) (c1 c2 e : Point) (n : ℕ) :
    ∀ sl, (subdivde_loop sa ss c1 c2 e n sl).length = n := by
  induction n with
  | zero => intro sl; rfl
  | succ k ih =>
      intro sl
      simp only [subdivde_loop, List.length_cons, ih]

theorem subdivde_sweep_length (θ : ℝ) :
    (subdivde_sweep θ).length = (⌈|θ| / (Real.pi / 2)⌉).toNat := by
  simp only [subdivde_sweep]
  rw [subdivde_loop_length]

/-- The claim C4 theorem.  For every positive sweep angle, subdivde_sweep
produces a nonempty list of segments, each spanning an equal share of the
sweep no larger than a quarter turn, and no smaller segment count would
respect the quarter-turn bound; in particular a sweep of three half pi
(270 degrees) yields exactly 3 segments and a sweep of half pi (90 degrees)
yields exactly 1. -/
theorem arc_subdivde_sweep_spec :
    (∀ θ : ℝ, 0 < θ →
      0 < (subdivde_sweep θ).length ∧
      θ / (subdivde_sweep θ).length ≤ Real.pi / 2 ∧
      ∀ m : ℕ, 0 < m → m < (subdivde_sweep θ).length → Real.pi / 2 < θ / m) ∧
    (subdivde_sweep (3 * Real.pi / 2)).length = 3 ∧
    (subdivde_sweep (Real.pi / 2)).length = 1 := by
  have hq : (0 : ℝ) < Real.pi / 2 := by positivity
  refine ⟨?_, ?_, ?_⟩
  · intro θ hθ
    have habs : |θ| = θ := abs_of_pos hθ
    have hr : 0 < θ / (Real.pi / 2) := div_pos hθ hq
    have hlen : (subdivde_sweep θ).length = (⌈θ / (Real.pi / 2)⌉).toNat := by
      rw [subdivde_sweep_length, habs]
    have hceil : (0 : ℤ) < ⌈θ / (Real.pi / 2)⌉ := Int.ceil_pos.mpr hr
    have hlenpos : 0 < (subdivde_sweep θ).length := by
      rw [hlen]
      omega
    refine ⟨hlenpos, ?_, ?_⟩
    · rw [hlen]
      have hcast : (((⌈θ / (Real.pi / 2)⌉).toNat : ℕ) : ℝ)
          = ((⌈θ / (Real.pi / 2)⌉ : ℤ) : ℝ) := by
        exact_mod_cast congrArg (fun z : ℤ => (z : ℝ))
          (Int.toNat_of_nonneg (le_of_lt hceil))
      have hnpos : (0 : ℝ) < (((⌈θ / (Real.pi / 2)⌉).toNat : ℕ) : ℝ) := by
        rw [hcast]
        exact_mod_cast hceil
      rw [div_le_iff₀ hnpos]
      have hge : θ / (Real.pi / 2) ≤ (((⌈θ / (Real.pi / 2)⌉).toNat : ℕ) : ℝ) := by
        rw [hcast]
        exact Int.le_ceil _
      have := (div_le_iff₀ hq).mp hge
      linarith
    · intro m hm hmn
      rw [hlen] at hmn
      have hmz : (m : ℤ) < ⌈θ / (Real.pi / 2)⌉ := by omega
      have hml : (m : ℝ) < θ / (Real.pi / 2) := by
        exact_mod_cast Int.lt_ceil.mp hmz
      have hm0 : (0 : ℝ) < m := by exact_mod_cast hm
      rw [lt_div_iff₀ hm0]
      have := (lt_div_iff₀ hq).mp hml
      linarith
  · rw [subdivde_sweep_length, abs_of_pos (by positivity : (0:ℝ) < 3 * Real.pi / 2)]
    have hdiv : (3 * Real.pi / 2) / (Real.pi / 2) = ((3 : ℤ) : ℝ) := by
      rw [div_eq_iff (ne_of_gt hq)]
      push_cast
      ring
    rw [hdiv, Int.ceil_intCast]
    rfl
  · rw [subdivde_sweep_length, abs_of_pos hq]
    have hdiv : (Real.pi / 2) / (Real.pi / 2) = ((1 : ℤ) : ℝ) := by
      rw [div_eq_iff (ne_of_gt hq)]
      push_cast
      ring
    rw [hdiv, Int.ceil_intCast]
    rfl

/-- Witness for claim C4: the quarter-turn sweep is positive, yields one
segment spanning at most a quarter turn, and no positive smaller count
exists below 1. -/
theorem arc_subdivde_sweep_spec_witness :
    0 < (subdivde_sweep (Real.pi / 2)).length ∧
      Real.pi / 2 / (subdivde_sweep (Real.pi / 2)).length ≤ Real.pi / 2 :=
  ⟨(arc_subdivde_sweep_spec.1 (Real.pi / 2) (by positivity)).1,
   (arc_subdivde_sweep_spec.1 (Real.pi / 2) (by positivity)).2.1⟩

/-- Path-gsds accumulator: the ordered set of graphics-state dictionary
names used so far (an ordered dictionary whose values are all None in the
source, so only the key order matters). -/
abbrev Gsds := List String

/-- Keyed insertion into the ordered name set: re-inserting an existing key
keeps its original position. -/
def gsdsInsert (n : String) (g : Gsds) : Gsds :=
  if n ∈ g then g else g ++ [n]

mutual
/-- A child of a graphics context: a primitive path element, a nested
GraphicsContext, or a nested PaintedPath. -/
inductive TreeItem where
  | elem (e : PathElem)
  | group (g : GraphicsContext)
  | painted (p : PaintedPathTree)
/-- Model of GraphicsContext: an own style, the ordered children, an
optional transform and an optional clipping path. -/
inductive GraphicsContext where
  | mk (style : GraphicsStyle) (path_items : List TreeItem)
      (transform : Option Transform) (clipping_path : Option PaintedPathTree)
/-- Model of a fully built PaintedPath (or ClippingPath, which shares the
data and differs only in its render method): the root graphics context.
The builder-time bookkeeping has reached quiescence: a pending implicit
close is already materialized in the item list. -/
inductive PaintedPathTree where
  | mk (root : GraphicsContext)
end

/-- Own style of a graphics context. -/
def GraphicsContext.style : GraphicsContext → GraphicsStyle
  | .mk s _ _ _ => s

/-- Children of a graphics context. -/
def GraphicsContext.path_items : GraphicsContext → List TreeItem
  | .mk _ l _ _ => l

/-- Optional transform of a graphics context. -/
def GraphicsContext.transform : GraphicsContext → Option Transform
  | .mk _ _ t _ => t

/-- Optional clipping path of a graphics context. -/
def GraphicsContext.clipping_path : GraphicsContext → Option PaintedPathTree
  | .mk _ _ _ c => c

/-- Root context of a painted path. -/
def PaintedPathTree.root : PaintedPathTree → GraphicsContext
  | .mk r => r

/-- Output of rendering one item: operator text, the new previous element,
and the threaded registry and name-set state. -/
structure RItem where
  txt : String
  last : PathElem
  reg : Registry
  gsds : Gsds

/-- Output of building a render list: the list of nonempty operator texts
plus the threaded state. -/
structure RList where
  txts : List String
  last : PathElem
  reg : Registry
  gsds : Gsds

/-- Model of list.insert(-1, x): insert immediately before the last element
(on an empty list this produces the one-element list, as in Python). -/
def insertBeforeLast (l : List String) (s : String) : List String :=
  l.take (l.length - 1) ++ [s] ++ l.drop (l.length - 1)

/-- The .value attribute access on the resolved paint rule performed by the
painted-path renderers.  On the INHERIT sentinel the source would raise
AttributeError; that state is unreachable because every render starts from a
base style whose paint rule is set, and the model returns the empty string
there. -/
def paintRuleValue : Tri PathPaintRule → String
  | .val r => r.value
  | .inherit => ""

/-- Inline color and dash operators emitted from the own style of a context
(these cannot live in the interned state dictionary; the dash pattern is
emitted both inline and in the dictionary on purpose). -/
def colorDashOps (selfStyle : GraphicsStyle) : List String :=
  (match selfStyle.fill_color with
   | .val c => [String.intercalate (" ") (c.colors.map number_to_str) ++ (" ")
       ++ c.operatorLower]
   | _ => []) ++
  (match selfStyle.stroke_color with
   | .val c => [String.intercalate (" ") (c.colors.map number_to_str) ++ (" ")
       ++ c.operatorUpper]
   | _ => []) ++
  (match selfStyle.stroke_dash with
   | .val pr => [render_pdf_primitive (.arr (pr.1.map PDFPrim.num)) ++ (" ")
       ++ number_to_str pr.2 ++ (" d")]
   | _ => [])

/-- Gs operator emitted when the interning returned a name. -/
def gsOp : Option String → List String
  | some n => [("/") ++ n ++ (" gs")]
  | Option.none => []

/-- Name-set update when the interning returned a name. -/
def gsdsStep : Option String → Gsds → Gsds
  | some n, gsds => gsdsInsert n gsds
  | Option.none, gsds => gsds

/-- Assembly of the final render list of build_render_list from its pieces:
the gs operator, the inline color and dash operators, the clip rendering,
the child renderings, then the rendered transform inserted at the front, and
the save and restore bracket when the stack push is enabled. -/
noncomputable def finishRenderList (rl0 : List String) (selfStyle : GraphicsStyle)
    (rlClip rlItems : List String) (tf : Option Transform) (lastN : PathElem)
    (push_stack : Bool) : List String :=
  let rl1 := rl0 ++ colorDashOps selfStyle ++ rlClip ++ rlItems
  let rl2 :=
    match tf with
    | some t => (Transform.render t lastN).1 :: rl1
    | Option.none => rl1
  if push_stack then ("q") :: rl2 ++ [("Q")] else rl2

mutual
/-- Model of the render method of a context child.  A primitive element
renders through PathElem.render (which touches neither the registry nor the
name set); a nested GraphicsContext renders through build_render_list with
the stack push enabled and joins the list with spaces (the body of
GraphicsContext.render in the source); a nested PaintedPath renders through
PaintedPathTree.render. -/
noncomputable def TreeItem.render : TreeItem → Registry → Gsds → GraphicsStyle →
    PathElem → RItem
  | .elem e, reg, gsds, style, last =>
      let r := PathElem.render e style last
      ⟨r.1, r.2, reg, gsds⟩
  | .group g, reg, gsds, style, last =>
      let r := GraphicsContext.build_render_list g reg gsds style last true
      ⟨String.intercalate (" ") r.txts, r.last, r.reg, r.gsds⟩
  | .painted p, reg, gsds, style, last => PaintedPathTree.render p reg gsds style last
termination_by it reg gsds style last => sizeOf it

/-- Render of a child list in order, threading the previous element and the
state and collecting the nonempty texts (the render loops of the source). -/
noncomputable def renderItems : List TreeItem → Registry → Gsds → GraphicsStyle →
    PathElem → RList
  | [], reg, gsds, _, last => ⟨[], last, reg, gsds⟩
  | it :: rest, reg, gsds, style, last =>
      let r := TreeItem.render it reg gsds style last
      let rs := renderItems rest r.reg r.gsds style r.last
      ⟨(if r.txt = "" then rs.txts else r.txt :: rs.txts), rs.last, rs.reg, rs.gsds⟩
termination_by l reg gsds style last => sizeOf l

/-- Model of GraphicsContext.build_render_list.  Nothing happens on an empty
child list.  Otherwise: intern the own style (recording a returned name in
the name set and emitting the gs operator); render the clipping path against
the merged style (discarding its final element), then the children in order;
and assemble through finishRenderList, which also emits the inline color and
dash operators of the own style, inserts the rendered transform before
everything, and brackets in a save and restore pair when the stack push is
enabled. -/
noncomputable def GraphicsContext.build_render_list : GraphicsContext → Registry →
    Gsds → GraphicsStyle → PathElem → Bool → RList
  | .mk selfStyle items tf clip, reg, gsds, style, last, push_stack =>
      if items.isEmpty then ⟨[], last, reg, gsds⟩
      else
        let so := _get_or_set_style_dict reg selfStyle
        let rc := clipStep clip so.2 (gsdsStep so.1 gsds)
          (GraphicsStyle.merge style selfStyle).1 last
        let ri := renderItems items rc.2.1 rc.2.2
          (GraphicsStyle.merge style selfStyle).1 last
        ⟨finishRenderList (gsOp so.1) selfStyle rc.1 ri.txts tf ri.last push_stack,
         ri.last, ri.reg, ri.gsds⟩
termination_by g reg gsds style last push_stack => sizeOf g

/-- Clipping-path step of build_render_list: when a clipping path is
present, render it and collect its nonempty text, threading the state; its
final element is discarded. -/
noncomputable def clipStep : Option PaintedPathTree → Registry → Gsds →
    GraphicsStyle → PathElem → List String × Registry × Gsds
  | some cp, reg, gsds, merged, last =>
      let r := ClippingPath.render cp reg gsds merged last
      ((if r.txt = "" then [] else [r.txt]), r.reg, r.gsds)
  | Option.none, reg, gsds, _, _ => ([], reg, gsds)
termination_by clip reg gsds merged last => sizeOf clip

/-- Model of PaintedPath.render: build the root render list with the stack
push enabled, resolve the paint rule of the merged style, insert its value
immediately before the final restore operator, and join. -/
noncomputable def PaintedPathTree.render : PaintedPathTree → Registry → Gsds →
    GraphicsStyle → PathElem → RItem
  | .mk root, reg, gsds, style, last =>
      let r := GraphicsContext.build_render_list root reg gsds style last true
      let paint_rule :=
        GraphicsStyle.resolve_paint_rule (GraphicsStyle.merge style root.style).1
      ⟨String.intercalate (" ") (insertBeforeLast r.txts (paintRuleValue paint_rule)),
       r.last, r.reg, r.gsds⟩
termination_by p reg gsds style last => sizeOf p

/-- Model of ClippingPath.render: build the root render list with the stack
push disabled (so the clip transform leaks no save and restore pair into the
clipped path), then append the intersection-rule operator (defaulting to the
nonzero W when the merged rule is INHERIT) and the resolved paint rule. -/
noncomputable def ClippingPath.render : PaintedPathTree → Registry → Gsds →
    GraphicsStyle → PathElem → RItem
  | .mk root, reg, gsds, style, last =>
      let r := GraphicsContext.build_render_list root reg gsds style last false
      let merged := (GraphicsStyle.merge style root.style).1
      let intersection_rule :=
        match merged.intersection_rule with
        | .inherit => ClippingPathIntersectionRule.NONZERO
        | .val ir => ClippingPathIntersectionRule.ofName ir
      let paint_rule := GraphicsStyle.resolve_paint_rule merged
      ⟨String.intercalate (" ")
        (r.txts ++ [intersection_rule.value, paintRuleValue paint_rule]),
       r.last, r.reg, r.gsds⟩
termination_by p reg gsds style last => sizeOf p
end

/-- Model of DrawingContext: the ordered top-level items (the source accepts
only GraphicsContext and PaintedPath children; primitive elements never
appear here). -/
structure DrawingContext where
  _subitems : List TreeItem

/-- Model of DrawingContext.render (with _setup_render_prereqs inlined): an
empty context renders to the empty string and the empty name set; otherwise
a base style (auto-close on, AUTO paint rule, nonzero intersection rule), a
synthetic previous element at the first point, and the base transform that
flips the vertical axis about half the page height and applies the scale are
set up; the output brackets the children in a save and restore pair.  The
registry is threaded explicitly (process-global in the source); the name
set starts empty on every call. -/
noncomputable def DrawingContext.render (self : DrawingContext) (first_point : Point)
    (scale height : ℝ) (reg : Registry) : (String × Gsds) × Registry :=
  if self._subitems.isEmpty then ((("" , ([] : Gsds))), reg)
  else
    let style : GraphicsStyle :=
      { auto_close := .val true, paint_rule := .val PathPaintRule.AUTO,
        intersection_rule := .val IntersectionRule.NONZERO }
    let last : PathElem := .move first_point
    let sc := (((Transform.scaling 1 (-1)).about 0 (height / 2)).scale scale scale).render
      last
    let r := renderItems self._subitems reg [] style sc.2
    ((String.intercalate (" ") ((("q") :: sc.1 :: r.txts) ++ [("Q")]), r.gsds), r.reg)

/-- The claim C7 theorem.  For every style and previous element, the render
of Close always emits the close operator h; the render of ImplicitClose
emits h when the resolved auto_close flag is True and the empty string when
it is False (a resolved style always carries one of the two, since the base
style of every render sets the flag; the unresolved INHERIT sentinel would
be truthy in the source); and both leave the previous element unchanged. -/
theorem close_implicit_close_render (style : GraphicsStyle) (last_item : PathElem) :
    PathElem.render .close style last_item = (("h"), last_item) ∧
    (style.auto_close = Tri.val true →
      PathElem.render .implicitClose style last_item = (("h"), last_item)) ∧
    (style.auto_close = Tri.val false →
      PathElem.render .implicitClose style last_item = (("") , last_item)) := by
  refine ⟨rfl, ?_, ?_⟩
  · intro h
    simp [PathElem.render, autoCloseTruthy, h]
  · intro h
    simp [PathElem.render, autoCloseTruthy, h]

/-- Witness for claim C7 at resolved styles with the flag on and off. -/
theorem close_implicit_close_render_witness :
    PathElem.render .close { auto_close := .val true } (.move ⟨0, 0⟩)
        = (("h"), .move ⟨0, 0⟩) ∧
    PathElem.render .implicitClose { auto_close := .val true } (.move ⟨0, 0⟩)
        = (("h"), .move ⟨0, 0⟩) ∧
    PathElem.render .implicitClose { auto_close := .val false } (.move ⟨0, 0⟩)
        = (("") , .move ⟨0, 0⟩) :=
  ⟨(close_implicit_close_render { auto_close := .val true } (.move ⟨0, 0⟩)).1,
   (close_implicit_close_render { auto_close := .val true } (.move ⟨0, 0⟩)).2.1 rfl,
   (close_implicit_close_render { auto_close := .val false } (.move ⟨0, 0⟩)).2.2 rfl⟩

/-- The claim C8 theorem.  Rendering a DrawingContext with no sub-items
returns the empty operator string and the empty resource-name set (and the
untouched registry), whatever the first point, scale and page height. -/
theorem drawing_context_render_empty (d : DrawingContext) (first_point : Point)
    (scale height : ℝ) (reg : Registry) (h : d._subitems = []) :
    d.render first_point scale height reg = ((("" , ([] : Gsds))), reg) := by
  rw [DrawingContext.render, if_pos]
  rw [h]
  rfl

/-- Witness for claim C8 at a concrete empty drawing context. -/
theorem drawing_context_render_empty_witness :
    DrawingContext.render ⟨[]⟩ ⟨1, 2⟩ 2 297 initRegistry
      = ((("" , ([] : Gsds))), initRegistry) :=
  drawing_context_render_empty ⟨[]⟩ ⟨1, 2⟩ 2 297 initRegistry rfl

set_option maxHeartbeats 1600000 in
mutual
theorem treeItem_render_stable (it : TreeItem) :
    ∀ (reg : Registry) (gsds : Gsds) (style : GraphicsStyle) (last : PathElem),
      Registry.Ext reg (TreeItem.render it reg gsds style last).reg ∧
      ∀ reg2, Registry.Ext (TreeItem.render it reg gsds style last).reg reg2 →
        TreeItem.render it reg2 gsds style last
          = { TreeItem.render it reg gsds style last with reg := reg2 } := by
  cases it with
  | elem e =>
      intro reg gsds style last
      simp only [TreeItem.render]
      exact ⟨Registry.Ext.rfl _, fun reg2 hext => trivial⟩
  | group g =>
      intro reg gsds style last
      have hb := build_render_list_stable g reg gsds style last true
      refine ⟨?_, ?_⟩
      · simpa only [TreeItem.render] using hb.1
      · intro reg2 hext
        have hext' : Registry.Ext
            (GraphicsContext.build_render_list g reg gsds style last true).reg reg2 := by
          simpa only [TreeItem.render] using hext
        simp only [TreeItem.render, hb.2 reg2 hext']
  | painted p =>
      intro reg gsds style last
      have hb := paintedPathTree_render_stable p reg gsds style last
      refine ⟨?_, ?_⟩
      · simpa only [TreeItem.render] using hb.1
      · intro reg2 hext
        have hext' : Registry.Ext
            (PaintedPathTree.render p reg gsds style last).reg reg2 := by
          simpa only [TreeItem.render] using hext
        simp only [TreeItem.render, hb.2 reg2 hext']

theorem renderItems_stable (l : List TreeItem) :
    ∀ (reg : Registry) (gsds : Gsds) (style : GraphicsStyle) (last : PathElem),
      Registry.Ext reg (renderItems l reg gsds style last).reg ∧
      ∀ reg2, Registry.Ext (renderItems l reg gsds style last).reg reg2 →
        renderItems l reg2 gsds style last
          = { renderItems l reg gsds style last with reg := reg2 } := by
  cases l with
  | nil =>
      intro reg gsds style last
      simp only [renderItems]
      exact ⟨Registry.Ext.rfl _, fun reg2 hext => trivial⟩
  | cons it rest =>
      intro reg gsds style last
      have hi := treeItem_render_stable it reg gsds style last
      have hrest := renderItems_stable rest
        (TreeItem.render it reg gsds style last).reg
        (TreeItem.render it reg gsds style last).gsds style
        (TreeItem.render it reg gsds style last).last
      refine ⟨?_, ?_⟩
      · simp only [renderItems]
        exact Registry.Ext.trans hi.1 hrest.1
      · intro reg2 hext
        simp only [renderItems] at hext
        have hi2 := hi.2 reg2 (Registry.Ext.trans hrest.1 hext)
        have hrest2 := hrest.2 reg2 hext
        simp only [renderItems, hi2, hrest2]

theorem build_render_list_stable (g : GraphicsContext) :
    ∀ (reg : Registry) (gsds : Gsds) (style : GraphicsStyle) (last : PathElem)
      (push_stack : Bool),
      Registry.Ext reg
        (GraphicsContext.build_render_list g reg gsds style last push_stack).reg ∧
      ∀ reg2, Registry.Ext
          (GraphicsContext.build_render_list g reg gsds style last push_stack).reg reg2 →
        GraphicsContext.build_render_list g reg2 gsds style last push_stack
          = { GraphicsContext.build_render_list g reg gsds style last push_stack with
              reg := reg2 } := by
  obtain ⟨selfStyle, items, tf, clip⟩ := g
  cases items with
  | nil =>
      intro reg gsds style last push_stack
      simp only [GraphicsContext.build_render_list, List.isEmpty_nil, if_true]
      exact ⟨Registry.Ext.rfl _, fun reg2 hext => trivial⟩
  | cons i0 irest =>
      intro reg gsds style last push_stack
      have hso1 : Registry.Ext reg (_get_or_set_style_dict reg selfStyle).2 :=
        get_or_set_ext reg selfStyle
      have hclip := clipStep_stable clip
        (_get_or_set_style_dict reg selfStyle).2
        (gsdsStep (_get_or_set_style_dict reg selfStyle).1 gsds)
        (GraphicsStyle.merge style selfStyle).1 last
      have hitems := renderItems_stable (i0 :: irest)
        (clipStep clip (_get_or_set_style_dict reg selfStyle).2
          (gsdsStep (_get_or_set_style_dict reg selfStyle).1 gsds)
          (GraphicsStyle.merge style selfStyle).1 last).2.1
        (clipStep clip (_get_or_set_style_dict reg selfStyle).2
          (gsdsStep (_get_or_set_style_dict reg selfStyle).1 gsds)
          (GraphicsStyle.merge style selfStyle).1 last).2.2
        (GraphicsStyle.merge style selfStyle).1 last
      refine ⟨?_, ?_⟩
      · simp only [GraphicsContext.build_render_list, List.isEmpty_cons,
          Bool.false_eq_true, if_false]
        exact Registry.Ext.trans hso1 (Registry.Ext.trans hclip.1 hitems.1)
      · intro reg2 hext
        simp only [GraphicsContext.build_render_list, List.isEmpty_cons,
          Bool.false_eq_true, if_false] at hext
        have hso2 := get_or_set_stable reg selfStyle reg2
          (Registry.Ext.trans hclip.1 (Registry.Ext.trans hitems.1 hext)) selfStyle rfl
        have hclip2 := hclip.2 reg2 (Registry.Ext.trans hitems.1 hext)
        have hitems2 := hitems.2 reg2 hext
        simp only [GraphicsContext.build_render_list, List.isEmpty_cons,
          Bool.false_eq_true, if_false, hso2, hclip2, hitems2]

theorem clipStep_stable (clip : Option PaintedPathTree) :
    ∀ (reg : Registry) (gsds : Gsds) (merged : GraphicsStyle) (last : PathElem),
      Registry.Ext reg (clipStep clip reg gsds merged last).2.1 ∧
      ∀ reg2, Registry.Ext (clipStep clip reg gsds merged last).2.1 reg2 →
        clipStep clip reg2 gsds merged last
          = ((clipStep clip reg gsds merged last).1, reg2,
             (clipStep clip reg gsds merged last).2.2) := by
  cases clip with
  | none =>
      intro reg gsds merged last
      simp only [clipStep]
      exact ⟨Registry.Ext.rfl _, fun reg2 hext => trivial⟩
  | some cp =>
      intro reg gsds merged last
      have hc := clippingPath_render_stable cp reg gsds merged last
      refine ⟨?_, ?_⟩
      · simpa only [clipStep] using hc.1
      · intro reg2 hext
        have hext2 : Registry.Ext (ClippingPath.render cp reg gsds merged last).reg
            reg2 := by
          simpa only [clipStep] using hext
        simp only [clipStep, hc.2 reg2 hext2]

theorem paintedPathTree_render_stable (p : PaintedPathTree) :
    ∀ (reg : Registry) (gsds : Gsds) (style : GraphicsStyle) (last : PathElem),
      Registry.Ext reg (PaintedPathTree.render p reg gsds style last).reg ∧
      ∀ reg2, Registry.Ext (PaintedPathTree.render p reg gsds style last).reg reg2 →
        PaintedPathTree.render p reg2 gsds style last
          = { PaintedPathTree.render p reg gsds style last with reg := reg2 } := by
  obtain ⟨root⟩ := p
  intro reg gsds style last
  have hb := build_render_list_stable root reg gsds style last true
  refine ⟨?_, ?_⟩
  · simpa only [PaintedPathTree.render] using hb.1
  · intro reg2 hext
    have hext' : Registry.Ext
        (GraphicsContext.build_render_list root reg gsds style last true).reg reg2 := by
      simpa only [PaintedPathTree.render] using hext
    simp only [PaintedPathTree.render, hb.2 reg2 hext']

theorem clippingPath_render_stable (p : PaintedPathTree) :
    ∀ (reg : Registry) (gsds : Gsds) (style : GraphicsStyle) (last : PathElem),
      Registry.Ext reg (ClippingPath.render p reg gsds style last).reg ∧
      ∀ reg2, Registry.Ext (ClippingPath.render p reg gsds style last).reg reg2 →
        ClippingPath.render p reg2 gsds style last
          = { ClippingPath.render p reg gsds style last with reg := reg2 } := by
  obtain ⟨root⟩ := p
  intro reg gsds style last
  have hb := build_render_list_stable root reg gsds style last false
  refine ⟨?_, ?_⟩
  · simpa only [ClippingPath.render] using hb.1
  · intro reg2 hext
    have hext' : Registry.Ext
        (GraphicsContext.build_render_list root reg gsds style last false).reg reg2 := by
      simpa only [ClippingPath.render] using hext
    simp only [ClippingPath.render, hb.2 reg2 hext']
end

/-- The claim C5 theorem.  Rendering is deterministic across repeated calls:
re-running DrawingContext.render on the same drawing with the same first
point, scale and page height, starting from the registry state left behind
by the first run, produces the identical operator string and the identical
resource-name set, and leaves the registry unchanged.  In particular two
runs on equal inputs and equal registry state give equal outputs (the
render function is a pure function of its inputs and the threaded
registry). -/
theorem drawing_context_render_deterministic (d : DrawingContext)
    (first_point : Point) (scale height : ℝ) (reg : Registry) :
    d.render first_point scale height ((d.render first_point scale height reg).2)
      = d.render first_point scale height reg := by
  obtain ⟨subs⟩ := d
  cases subs with
  | nil => simp [DrawingContext.render]
  | cons i0 irest =>
      simp only [DrawingContext.render, List.isEmpty_cons, Bool.false_eq_true, if_false]
      rw [(renderItems_stable (i0 :: irest) reg []
        { auto_close := .val true, paint_rule := .val PathPaintRule.AUTO,
          intersection_rule := .val IntersectionRule.NONZERO }
        ((((Transform.scaling 1 (-1)).about 0 (height / 2)).scale scale scale).render
          (PathElem.move first_point)).2).2
        ((renderItems (i0 :: irest) reg []
          { auto_close := .val true, paint_rule := .val PathPaintRule.AUTO,
            intersection_rule := .val IntersectionRule.NONZERO }
          ((((Transform.scaling 1 (-1)).about 0 (height / 2)).scale scale
              scale).render (PathElem.move first_point)).2).reg)
        (Registry.Ext.rfl _)]

end Drawing
